import Mathlib

/-! # cmos-dump: a shallow embedding of `cmos-dump.c`

The program reads the 128 bytes of the RTC/CMOS memory through `/dev/port`
and prints them, first as a hex dump and then field by field.

* `uint8_t` values are `Fin 256`; C arithmetic on them happens after integer
  promotion, so every expression works on `.val : Nat`.
* `uint16_t tmp` is a `Nat` reduced `% 65536` at each assignment, the loop
  counter `uint8_t i` a `Nat` reduced `% 256` at each increment.
* A string table is a `List String`; `tbl[i]` is `lookup tbl i`, which yields
  `Arg.undef` when `i` is past the last entry.
* Each `printf` call is recorded as its format string and its arguments.
* The system calls on `/dev/port` are answered by an environment and logged.
-/

namespace CmosDump

/-! ## Data model -/

/-- A `uint8_t`. -/
abbrev Byte := Fin 256

/-- The array `uint8_t data[0x80]` of `main`. -/
abbrev CmosImage := Fin 128 → Byte

/-- An argument handed to `printf`. -/
inductive Arg where
  /-- An integer argument. -/
  | num (n : Nat)
  /-- A string argument. -/
  | str (s : String)
  /-- The result of reading an array past its last element. -/
  | undef
  deriving DecidableEq, Repr

/-- One call of `printf`: the format string and the arguments. Macros of
`<inttypes.h>` in a format are written out (`PRIu16` is `u`). -/
structure Printf where
  fmt : String
  args : List Arg
  deriving DecidableEq, Repr

/-- The C expression `tbl[i]` for a table of strings. -/
def lookup (tbl : List String) (i : Nat) : Arg :=
  match tbl[i]? with
  | some s => Arg.str s
  | none => Arg.undef

/-- The C expression `data[k]` for a computed index `k`. -/
def rd (data : CmosImage) (k : Nat) : Arg :=
  if h : k < 128 then Arg.num (data ⟨k, h⟩).val else Arg.undef

/-! ## The enumeration tables of `main` -/

def cmos_shutdown_status : List String :=
  [ "Power on or soft reset",
    "Memory size pass",
    "Memory test pass",
    "Memory test fail",
    "INT 19h reboot",
    "Flush keyboard and jmp via 40h:67h",
    "Protected mode tests pass",
    "Protected mode tests fail",
    "Used by POST during protected-mode RAM test",
    "Int 15h (block move)",
    "Jmp via 40h:67h",
    "Used by 80386" ]

def floppy_disk : List String :=
  [ "None",
    "360KB 5.25\" Drive",
    "1.2MB 5.25\" Drive",
    "720KB 3.5\" Drive",
    "1.44MB 3.5\" Drive",
    "2.88MB 3.5\" Drive",
    "Unknown",
    "Unknown" ]

def hard_disk : List String :=
  [ "None",
    "Type 1",
    "Unknown",
    "Unknown",
    "Unknown",
    "Unknown",
    "Unknown",
    "Unknown",
    "Unknown",
    "Unknown",
    "Unknown",
    "Unknown",
    "Unknown",
    "Unknown",
    "Type 14",
    "Type 16-47" ]

def primary_display : List String :=
  [ "BIOS selected",
    "CGA 40 column",
    "CGA 80 column",
    "Monochrome" ]

def divider : List String :=
  [ "4.194 MHz",
    "1.049 MHz",
    "32.768 KHz (default)",
    "unknown",
    "test mode",
    "test mode",
    "reset / disable",
    "reset / disable" ]

def rate_selection : List String :=
  [ "none",
    "3.90625 millseconds",
    "7.8215 milliseconds",
    "122.070 microseconds",
    "244.141 microseconds",
    "488.281 microseconds",
    "976.562 microseconds (default)",
    "1.953125 milliseconds",
    "3.90625 milliseconds",
    "7.8215 milliseconds",
    "15.625 milliseconds",
    "31.25 milliseconds",
    "62.5 milliseconds",
    "125 milliseconds",
    "250 milliseconds",
    "500 milliseconds" ]

/-! ## The decode pass of `main` (lines 228 to 362) -/

/-- The argument list of one row of the hex dump, for counter value `i`. -/
def hexRow (data : CmosImage) (i : Nat) : Printf :=
  ⟨"  %2.2x: %2.2x %2.2x %2.2x %2.2x  %2.2x %2.2x %2.2x %2.2x\n",
   [Arg.num i, rd data i, rd data (i + 1), rd data (i + 2), rd data (i + 3),
    rd data (i + 4), rd data (i + 5), rd data (i + 6), rd data (i + 7)]⟩

/-- The loop `for (i = 0; i < sizeof(data); i += 8)` started at counter value
`i`, `i` being a `uint8_t`. The first argument bounds the number of iterations;
`none` means that the bound was reached with the loop condition still true. -/
def hexLoop (data : CmosImage) : Nat → Nat → Option (List Printf)
  | 0, i => if i < 128 then none else some []
  | fuel + 1, i =>
    if i < 128 then
      (hexLoop data fuel ((i + 8) % 256)).map (fun rows => hexRow data i :: rows)
    else some []

/-- Lines 237 to 251: the clock and the alarm. -/
def reportClock (data : CmosImage) : List Printf :=
  [ ⟨"RTC Current Time: (CMOS 0x00..0x09)\n", []⟩,
    ⟨"  RTC seconds:            %2.2x\n", [Arg.num (data 0).val]⟩,
    ⟨"  RTC minutes:            %2.2x\n", [Arg.num (data 2).val]⟩,
    ⟨"  RTC hours:              %2.2x\n", [Arg.num (data 4).val]⟩,
    ⟨"  RTC day of week:        %2.2x\n", [Arg.num (data 6).val]⟩,
    ⟨"  RTC date day:           %2.2x\n", [Arg.num (data 7).val]⟩,
    ⟨"  RTC date month:         %2.2x\n", [Arg.num (data 8).val]⟩,
    ⟨"  RTC date year:          %2.2x\n", [Arg.num (data 9).val]⟩,
    ⟨"\n", []⟩,
    ⟨"RTC Alarm:\n", []⟩,
    ⟨"  RTC seconds:            %2.2x\n", [Arg.num (data 1).val]⟩,
    ⟨"  RTC minutes:            %2.2x\n", [Arg.num (data 3).val]⟩,
    ⟨"  RTC hours:              %2.2x\n", [Arg.num (data 5).val]⟩,
    ⟨"\n", []⟩ ]

/-- Lines 253 to 259: Status Register A. -/
def reportStatusA (data : CmosImage) : List Printf :=
  [ ⟨"Status Register A: (CMOS 0x0a): 0x%2.2x\n", [Arg.num (data 10).val]⟩,
    ⟨"  Rate freq:              %1.1x (%s)\n",
      [Arg.num ((data 10).val &&& 0xf), lookup rate_selection ((data 10).val &&& 0xf)]⟩,
    ⟨"  Timer freq divider:     %1.1x (%s)\n",
      [Arg.num (((data 10).val >>> 4) &&& 0x7),
       lookup divider (((data 10).val >>> 4) &&& 0x7)]⟩,
    ⟨"  Update in progress:     %1.1x\n", [Arg.num (((data 10).val >>> 7) &&& 1)]⟩,
    ⟨"\n", []⟩ ]

/-- The C expression `c ? a : b` with string operands, `c` an `int`. -/
def ternary (c : Nat) (a b : String) : Arg :=
  if c ≠ 0 then Arg.str a else Arg.str b

/-- Lines 261 to 278: Status Register B. -/
def reportStatusB (data : CmosImage) : List Printf :=
  [ ⟨"Status Register B: (CMOS 0x0b): 0x%2.2x\n", [Arg.num (data 11).val]⟩,
    ⟨"  Daylight savings:       %1.1x (%s)\n",
      [Arg.num (((data 11).val >>> 1) &&& 1),
       ternary (((data 11).val >>> 1) &&& 1) "Enabled" "Disabled"]⟩,
    ⟨"  24 Hour Clock:          %1.1x (%s)\n",
      [Arg.num (((data 11).val >>> 1) &&& 1),
       ternary (((data 11).val >>> 1) &&& 1) "12 Hour" "24 Hour"]⟩,
    ⟨"  Data Mode (DM):          %1.1x (%s)\n",
      [Arg.num (((data 11).val >>> 2) &&& 1),
       ternary (((data 11).val >>> 2) &&& 1) "Binary" "BCD"]⟩,
    ⟨"  Square Wave:            %1.1x (%s)\n",
      [Arg.num (((data 11).val >>> 3) &&& 1),
       ternary (((data 11).val >>> 2) &&& 1) "Enabled" "Disabled"]⟩,
    ⟨"  Update ended IRQ:       %1.1x (%s)\n",
      [Arg.num (((data 11).val >>> 4) &&& 1),
       ternary (((data 11).val >>> 3) &&& 1) "Enabled" "Disabled"]⟩,
    ⟨"  Alarm IRQ:              %1.1x (%s)\n",
      [Arg.num (((data 11).val >>> 5) &&& 1),
       ternary (((data 11).val >>> 5) &&& 1) "Enabled" "Disabled"]⟩,
    ⟨"  Periodic IRQ:           %1.1x (%s)\n",
      [Arg.num (((data 11).val >>> 6) &&& 1),
       ternary (((data 11).val >>> 6) &&& 1) "Enabled" "Disabled"]⟩,
    ⟨"  Clock update cycle:     %1.1x (%s)\n",
      [Arg.num (((data 11).val >>> 7) &&& 1),
       ternary (((data 11).val >>> 7) &&& 1) "Abort update in progress" "Update normally"]⟩,
    ⟨"\n", []⟩ ]

/-- Lines 280 to 290: Status Registers C and D. -/
def reportStatusCD (data : CmosImage) : List Printf :=
  [ ⟨"Status Register C: (CMOS 0x0c): 0x%2.2x\n", [Arg.num (data 12).val]⟩,
    ⟨"  UF flag:                0x%1.1x\n", [Arg.num (((data 12).val >>> 4) &&& 1)]⟩,
    ⟨"  AF flag:                0x%1.1x\n", [Arg.num (((data 12).val >>> 5) &&& 1)]⟩,
    ⟨"  PF flag:                0x%1.1x\n", [Arg.num (((data 12).val >>> 6) &&& 1)]⟩,
    ⟨"  IRQF flag:              0x%1.1x\n", [Arg.num (((data 12).val >>> 7) &&& 1)]⟩,
    ⟨"\n", []⟩,
    ⟨"Status Register D: (CMOS 0x0d): 0x%2.2x\n", [Arg.num (data 13).val]⟩,
    ⟨"  Valid CMOS RAM flag:    0x%1.1x (%s)\n",
      [Arg.num (((data 13).val >>> 7) &&& 1),
       ternary (((data 13).val >>> 7) &&& 1) "Battery Good" "Battery Dead"]⟩,
    ⟨"\n", []⟩ ]

/-- Lines 292 to 305: Diagnostic Status. -/
def reportDiagnostic (data : CmosImage) : List Printf :=
  [ ⟨"Diagnostic Status: (CMOS 0x0e): 0x%2.2x\n", [Arg.num (data 14).val]⟩,
    ⟨"  CMOS time status:       0x%1.1x (%s)\n",
      [Arg.num (((data 14).val >>> 2) &&& 1),
       ternary (((data 14).val >>> 2) &&& 1) "Invalid" "Valid"]⟩,
    ⟨"  Fixed disk init:        0x%1.1x (%s)\n",
      [Arg.num (((data 14).val >>> 3) &&& 1),
       ternary (((data 14).val >>> 3) &&& 1) "Bad" "Good"]⟩,
    ⟨"  Memory size check:      0x%1.1x (%s)\n",
      [Arg.num (((data 14).val >>> 4) &&& 1),
       ternary (((data 14).val >>> 4) &&& 1) "Bad" "Good"]⟩,
    ⟨"  Config info status:     0x%1.1x (%s)\n",
      [Arg.num (((data 14).val >>> 5) &&& 1),
       ternary (((data 14).val >>> 5) &&& 1) "Invalid" "Valid"]⟩,
    ⟨"  CMOS checksum status:   0x%1.1x (%s)\n",
      [Arg.num (((data 14).val >>> 6) &&& 1),
       ternary (((data 14).val >>> 6) &&& 1) "Bad" "Good"]⟩,
    ⟨"  CMOS power loss:        0x%1.1x (%s)\n",
      [Arg.num (((data 14).val >>> 7) &&& 1),
       ternary (((data 14).val >>> 7) &&& 1) "Lost power" "Not lost power"]⟩,
    ⟨"\n", []⟩ ]

/-- The second argument of the `printf` of lines 307 and 308, for
`data[15] = b`. -/
def shutdownLabel (b : Nat) : Arg :=
  if b < 0xb then lookup cmos_shutdown_status b else Arg.str "Perform power-on reset"

/-- Lines 307 and 308: CMOS Shutdown Status. -/
def reportShutdown (data : CmosImage) : List Printf :=
  [ ⟨"CMOS Shutdown Status: (CMOS 0x0f): 0x%2.2x (%s)\n\n",
      [Arg.num (data 15).val, shutdownLabel (data 15).val]⟩ ]

/-- The index `((data[16] >> 4) & 0xf)` of line 311, for `data[16] = b`. -/
def floppyIndex0 (b : Nat) : Nat := (b >>> 4) &&& 0xf

/-- The index `((data[16] >> 0) & 0xf)` of line 312, for `data[16] = b`. -/
def floppyIndex1 (b : Nat) : Nat := (b >>> 0) &&& 0xf

/-- Lines 310 to 313: Floppy Disk Type. -/
def reportFloppy (data : CmosImage) : List Printf :=
  [ ⟨"Floppy Disk Type: (CMOS 0x10): 0x%2.2x\n", [Arg.num (data 16).val]⟩,
    ⟨"  Drive 0: %s\n", [lookup floppy_disk (floppyIndex0 (data 16).val)]⟩,
    ⟨"  Drive 1: %s\n", [lookup floppy_disk (floppyIndex1 (data 16).val)]⟩,
    ⟨"\n", []⟩ ]

/-- Lines 315 to 318: Hard Disk Type. -/
def reportHardDisk (data : CmosImage) : List Printf :=
  [ ⟨"Hard Disk Type: (CMOS 0x12, Obsolete): 0x%2.2x\n", [Arg.num (data 18).val]⟩,
    ⟨"  Drive 0: %s\n", [lookup hard_disk (((data 18).val >>> 4) &&& 0xf)]⟩,
    ⟨"  Drive 1: %s\n", [lookup hard_disk (((data 18).val >>> 0) &&& 0xf)]⟩,
    ⟨"\n", []⟩ ]

/-- Lines 320 to 331: Installed H/W. -/
def reportInstalled (data : CmosImage) : List Printf :=
  [ ⟨"Installed H/W: (CMOS 0x14): 0x%2.2x\n", [Arg.num (data 20).val]⟩,
    ⟨"  Maths Coprocessor:      0x%1.1x (%s)\n",
      [Arg.num (((data 20).val >>> 1) &&& 1),
       ternary (((data 20).val >>> 1) &&& 1) "Installed" "Not Installed"]⟩,
    ⟨"  Keyboard:               0x%1.1x (%s)\n",
      [Arg.num (((data 20).val >>> 2) &&& 1),
       ternary (((data 20).val >>> 2) &&& 1) "Installed" "Not Installed"]⟩,
    ⟨"  Display Adaptor:        0x%1.1x (%s)\n",
      [Arg.num (((data 20).val >>> 3) &&& 1),
       ternary (((data 20).val >>> 3) &&& 1) "Installed" "Not Installed"]⟩,
    ⟨"  Primary Display:        0x%1.1x (%s)\n",
      [Arg.num (((data 20).val >>> 4) &&& 3),
       lookup primary_display (((data 20).val >>> 4) &&& 3)]⟩,
    ⟨"  Floppy Drives:          0x%2.2x (%d drives)\n",
      [Arg.num (((data 20).val >>> 6) &&& 3), Arg.num ((((data 20).val >>> 6) &&& 3) + 1)]⟩,
    ⟨"\n", []⟩ ]

/-- The value of `tmp` after line 333, `tmp` being a `uint16_t`. -/
def baseMem (data : CmosImage) : Nat :=
  (((data 22).val <<< 8) ||| (data 21).val) % 65536

/-- Lines 333 to 336: Base Mem. -/
def reportBaseMem (data : CmosImage) : List Printf :=
  [ ⟨"Base Mem: (CMOS 0x16):\n", []⟩,
    ⟨"  0x%2.2x%2.2x (%uK)\n",
      [Arg.num (data 22).val, Arg.num (data 21).val, Arg.num (baseMem data)]⟩,
    ⟨"\n", []⟩ ]

/-- The value of `tmp` after line 338, `tmp` being a `uint16_t`. -/
def extMem (data : CmosImage) : Nat :=
  (((data 24).val <<< 8) ||| (data 25).val) % 65536

/-- The last argument of the `printf` of lines 340 and 341, for the value
`tmp`. -/
def extMemMarker (tmp : Nat) : Arg :=
  if tmp > 16 * 1024 then Arg.str "[untrustworthy]" else Arg.str ""

/-- Lines 338 to 342: Extended Mem. -/
def reportExtMem (data : CmosImage) : List Printf :=
  [ ⟨"Extended Mem: (CMOS 0x18):\n", []⟩,
    ⟨"  0x%2.2x%2.2x (%uK) %s\n",
      [Arg.num (data 24).val, Arg.num (data 23).val, Arg.num (extMem data),
       extMemMarker (extMem data)]⟩,
    ⟨"\n", []⟩ ]

/-- Lines 344 to 362: the extended hard disk types, the checksum, the second
extended memory field, the century and the POST information flag. -/
def reportTail (data : CmosImage) : List Printf :=
  [ ⟨"Hard Disk Extended Types (CMOS 0x19, 0x1a):\n", []⟩,
    ⟨"  Hard Disk 0:            0x%2.2x\n", [Arg.num (data 25).val]⟩,
    ⟨"  Hard Disk 1:            0x%2.2x\n", [Arg.num (data 26).val]⟩,
    ⟨"\n", []⟩,
    ⟨"CMOS Checksum:(CMOS 0x2e):0x%2.2x%2.2x\n",
      [Arg.num (data 47).val, Arg.num (data 46).val]⟩,
    ⟨"\n", []⟩,
    ⟨"Extended Mem: (CMOS 0x30):0x%2.2x%2.2x\n",
      [Arg.num (data 49).val, Arg.num (data 48).val]⟩,
    ⟨"\n", []⟩,
    ⟨"Century Date: (CMOS 0x32):%2.2x\n", [Arg.num (data 50).val]⟩,
    ⟨"\n", []⟩,
    ⟨"POST Information Flag (CMOS 0x33):\n", []⟩,
    ⟨"  POST cache test:        0x%1.1x %s\n",
      [Arg.num (((data 51).val >>> 0) &&& 1),
       ternary (((data 51).val >>> 0) &&& 1) "Failed" "Passed"]⟩,
    ⟨"  BIOS size:              0x%1.1x %s\n",
      [Arg.num (((data 51).val >>> 7) &&& 1),
       ternary (((data 51).val >>> 7) &&& 1) "128KB" "64KB"]⟩,
    ⟨"\n", []⟩ ]

/-- Lines 237 to 362: every `printf` after the hex dump, in program order. -/
def decode (data : CmosImage) : List Printf :=
  reportClock data ++ reportStatusA data ++ reportStatusB data ++ reportStatusCD data
    ++ reportDiagnostic data ++ reportShutdown data ++ reportFloppy data
    ++ reportHardDisk data ++ reportInstalled data ++ reportBaseMem data
    ++ reportExtMem data ++ reportTail data

/-- The number of values of a `uint8_t` loop counter. A loop whose condition
depends on such a counter alone and that has not ended after this many
iterations never ends. -/
def counterStates : Nat := 256

/-- Lines 228 to 362: everything `main` prints once the image is captured.
`none` means that the hex-dump loop does not end. -/
def report (data : CmosImage) : Option (List Printf) :=
  (hexLoop data counterStates 0).map (fun rows =>
    [⟨"CMOS Memory Dump:\n", []⟩] ++ rows ++ [⟨"\n", []⟩] ++ decode data)

/-! ## The privilege check: `get_capabilities` and line 219 -/

/-- Modelled from the spec: the constant `CAP_SYS_RAWIO` of
`<linux/capability.h>`, a header that is not part of the repository. It is the
number of the raw-I/O capability, 17. -/
def CAP_SYS_RAWIO : Nat := 17

/-- The constant `EXIT_SUCCESS` of `<stdlib.h>`. -/
def EXIT_SUCCESS : Nat := 0

/-- The constant `EXIT_FAILURE` of `<stdlib.h>`. -/
def EXIT_FAILURE : Nat := 1

/-- The C library's `isspace` in the C locale. -/
def isspace (c : Char) : Bool :=
  c = ' ' || c = '\t' || c = '\n' || c = Char.ofNat 11 || c = Char.ofNat 12 || c = '\r'

/-- The characters `fgets` stores when it may store at most `k` of them: it
stops after a newline. The second component is the unread rest of the file. -/
def fgetsChunk : Nat → List Char → List Char × List Char
  | 0, cs => ([], cs)
  | _ + 1, [] => ([], [])
  | k + 1, c :: cs =>
    if c = '\n' then ([c], cs)
    else (c :: (fgetsChunk k cs).1, (fgetsChunk k cs).2)

/-- The call `fgets(buffer, n, fp)`: `none` at the end of the file. -/
def fgets (n : Nat) (input : List Char) : Option (List Char × List Char) :=
  if input = [] then none else some (fgetsChunk (n - 1) input)

/-- The C string held by a buffer: its content up to the first NUL. -/
def cstr (buffer : List Char) : List Char :=
  buffer.takeWhile (fun c => c ≠ Char.ofNat 0)

/-- The test `strstr(haystack, needle) != NULL`. -/
def strstr : List Char → List Char → Bool
  | [], needle => needle.isEmpty
  | c :: cs, needle => needle.isPrefixOf (c :: cs) || strstr cs needle

/-- The value of a hexadecimal digit. -/
def hexDigit (c : Char) : Option Nat :=
  if '0' ≤ c ∧ c ≤ '9' then some (c.toNat - '0'.toNat)
  else if 'a' ≤ c ∧ c ≤ 'f' then some (c.toNat - 'a'.toNat + 10)
  else if 'A' ≤ c ∧ c ≤ 'F' then some (c.toNat - 'A'.toNat + 10)
  else none

/-- The conversion `%lx` of `sscanf` into a `uint64_t`: white space, an
optional sign, an optional `0x`, hexadecimal digits. `none` when there is
nothing to convert. A value that does not fit becomes `2^64 - 1`, a negative
one is taken modulo `2^64`. -/
def scanHex64 (input : List Char) : Option Nat :=
  let cs := input.dropWhile isspace
  let neg := cs.head? = some '-'
  let cs1 := if cs.head? = some '-' ∨ cs.head? = some '+' then cs.tail else cs
  let zeroX :=
    match cs1 with
    | '0' :: 'x' :: _ => true
    | '0' :: 'X' :: _ => true
    | _ => false
  let cs2 := if zeroX then cs1.drop 2 else cs1
  let digits := (cs2.takeWhile (fun c => (hexDigit c).isSome)).filterMap hexDigit
  if digits = [] ∧ zeroX = false then none
  else
    let v := digits.foldl (fun a d => 16 * a + d) 0
    some (if v ≥ 2 ^ 64 then 2 ^ 64 - 1 else if neg then (2 ^ 64 - v) % 2 ^ 64 else v)

/-- The call `sscanf(buffer, "%*s %" SCNx64, &flags)` of line 46: `some v`
when it returns 1 and stores `v`, `none` otherwise. -/
def sscanfFlags (buffer : List Char) : Option Nat :=
  let cs := buffer.dropWhile isspace
  if cs.takeWhile (fun c => !isspace c) = [] then none
  else scanHex64 ((cs.dropWhile (fun c => !isspace c)).dropWhile isspace)

/-- The loop of lines 44 to 51 over the unread rest of the file; the result is
the final value of `flags`. The first argument bounds the number of
iterations; `none` means that the bound was reached. -/
def capabilitiesLoop : Nat → List Char → Option Nat
  | fuel, input =>
    match fgets (1024 - 1) input with
    | none => some 0
    | some (buffer, rest) =>
      if strstr (cstr buffer) "CapPrm:".toList then
        match sscanfFlags (cstr buffer) with
        | some flags => some flags
        | none => some 0
      else
        match fuel with
        | 0 => none
        | fuel1 + 1 => capabilitiesLoop fuel1 rest

/-- The function `get_capabilities`. The argument is the content of
`/proc/self/status`, one `Char` for each byte, or `none` when the file cannot
be opened. Each iteration of the loop reads at least one character, so the
length of the file bounds the number of iterations. -/
def get_capabilities (status : Option (List Char)) : Option Nat :=
  match status with
  | none => some 0
  | some content => capabilitiesLoop content.length content

/-- The condition `(get_capabilities() & CAP_SYS_RAWIO) == 0` of line 219, for
the mask `caps` that `get_capabilities` returned. -/
def privilegeMissing (caps : Nat) : Bool :=
  (caps &&& CAP_SYS_RAWIO) == 0

/-! ## The port accessor: `port_seek`, `port_write`, `port_read`, `cmos_read` -/

/-- A system call on `/dev/port`. -/
inductive Call where
  /-- The call `open("/dev/port", O_RDWR | O_NDELAY)`. -/
  | open
  /-- The call `lseek(fd, offset, SEEK_SET)`. -/
  | lseek (offset : Nat)
  /-- The call `write(fd, &value, 1)` of `port_write(fd, offset, value)`. -/
  | write (offset value : Nat)
  /-- The call `read(fd, value, 1)` of `port_read(fd, offset, value)`. -/
  | read (offset : Nat)
  /-- The call `close(fd)`. -/
  | close
  deriving DecidableEq, Repr

/-- What the system answers to a call. -/
inductive Answer where
  /-- The call fails: `open` or `lseek` returns a negative value, `read` or
  `write` does not transfer exactly one byte. -/
  | fail
  /-- The call succeeds; `b` is the byte a `read` delivers and has no meaning
  for the other calls. -/
  | ok (b : Byte)
  deriving DecidableEq, Repr

/-- A call together with its answer. -/
structure Event where
  call : Call
  answer : Answer
  deriving DecidableEq, Repr

/-- The system as the program sees it: the answer to a call may depend on
everything that happened before. -/
abbrev Env := List Event → Call → Answer

/-- One call of `fprintf(stderr, ...)`, with the arguments that the program
determines; `errno` and `strerror(errno)` are left out. -/
inductive ErrMsg where
  /-- Line 220: `Must have CAP_SYS_RAWIO to run %s (hint: run as root)`. -/
  | needCapability (argv0 : String)
  /-- Line 100: `Cannot open /dev/port`. -/
  | cannotOpen
  /-- Line 59: `Cannot seek to port`. -/
  | cannotSeek (offset : Nat)
  /-- Line 72: `Cannot write value ... to /dev/port offset ...`. -/
  | cannotWrite (value offset : Nat)
  /-- Line 85: `Cannot read value from /dev/port offset ...`. -/
  | cannotRead (offset : Nat)
  deriving DecidableEq, Repr

/-- What the process has done so far: the system calls on `/dev/port` in the
order they were made, and what was written to the two output streams. -/
structure World where
  log : List Event
  stdout : List Printf
  stderr : List ErrMsg
  deriving DecidableEq, Repr

/-- How a function ends. -/
inductive Outcome (α : Type) where
  /-- The function returns `a`. -/
  | ret (a : α) (w : World)
  /-- The function calls `exit(code)`. -/
  | exit (code : Nat) (w : World)
  /-- A loop does not end. -/
  | diverge

/-- Make a system call: ask the environment and log the call. -/
def sys (env : Env) (c : Call) (w : World) : Answer × World :=
  (env w.log c, { w with log := w.log ++ [⟨c, env w.log c⟩] })

/-- Write a message to `stderr`. -/
def complain (m : ErrMsg) (w : World) : World :=
  { w with stderr := w.stderr ++ [m] }

/-- The function `port_seek`: `none` for the return value -1, `some ()` for 0. -/
def port_seek (env : Env) (offset : Byte) (w : World) : Option Unit × World :=
  match sys env (Call.lseek offset.val) w with
  | (Answer.fail, w1) => (none, complain (ErrMsg.cannotSeek offset.val) w1)
  | (Answer.ok _, w1) => (some (), w1)

/-- The function `port_write`: `none` for the return value -1, `some ()` for 0. -/
def port_write (env : Env) (offset value : Byte) (w : World) : Option Unit × World :=
  match port_seek env offset w with
  | (none, w1) => (none, w1)
  | (some _, w1) =>
    match sys env (Call.write offset.val value.val) w1 with
    | (Answer.fail, w2) => (none, complain (ErrMsg.cannotWrite value.val offset.val) w2)
    | (Answer.ok _, w2) => (some (), w2)

/-- The function `port_read`: `none` for the return value -1, `some b` for the
return value 0 with `b` stored in `*value`. -/
def port_read (env : Env) (offset : Byte) (w : World) : Option Byte × World :=
  match port_seek env offset w with
  | (none, w1) => (none, w1)
  | (some _, w1) =>
    match sys env (Call.read offset.val) w1 with
    | (Answer.fail, w2) => (none, complain (ErrMsg.cannotRead offset.val) w2)
    | (Answer.ok b, w2) => (some b, w2)

/-- The function `cmos_read`. -/
def cmos_read (env : Env) (offset : Byte) (w : World) : Outcome Byte :=
  match sys env Call.open w with
  | (Answer.fail, w1) => Outcome.exit EXIT_FAILURE (complain ErrMsg.cannotOpen w1)
  | (Answer.ok _, w1) =>
    match port_write env 0x70 offset w1 with
    | (none, w2) => Outcome.exit EXIT_FAILURE (sys env Call.close w2).2
    | (some _, w2) =>
      match port_write env 0x80 0x00 w2 with
      | (none, w3) => Outcome.exit EXIT_FAILURE (sys env Call.close w3).2
      | (some _, w3) =>
        match port_read env 0x71 w3 with
        | (none, w4) => Outcome.exit EXIT_FAILURE (sys env Call.close w4).2
        | (some value, w4) => Outcome.ret value (sys env Call.close w4).2

/-! ## The function `main` -/

/-- The loop `for (i = 0; i < sizeof(data); i++) data[i] = cmos_read(i);` of
lines 225 and 226, started at counter value `i`, `i` being a `uint8_t`. The
first argument bounds the number of iterations. -/
def captureLoop (env : Env) : Nat → Nat → CmosImage → World → Outcome CmosImage
  | 0, i, data, w => if i < 128 then Outcome.diverge else Outcome.ret data w
  | fuel + 1, i, data, w =>
    if h : i < 128 then
      match cmos_read env (Fin.ofNat i) w with
      | Outcome.ret value w1 =>
        captureLoop env fuel ((i + 1) % 256) (Function.update data ⟨i, h⟩ value) w1
      | Outcome.exit code w1 => Outcome.exit code w1
      | Outcome.diverge => Outcome.diverge
    else Outcome.ret data w

/-- The function `main`. Its inputs are the content of `/proc/self/status`
(`none` when it cannot be opened), `argv[0]`, the system behind `/dev/port`,
and the indeterminate initial content of the local array `data`. -/
def main (status : Option (List Char)) (argv0 : String) (env : Env)
    (data0 : CmosImage) : Outcome Empty :=
  match get_capabilities status with
  | none => Outcome.diverge
  | some caps =>
    if privilegeMissing caps then
      Outcome.exit EXIT_FAILURE (complain (ErrMsg.needCapability argv0) ⟨[], [], []⟩)
    else
      match captureLoop env counterStates 0 data0 ⟨[], [], []⟩ with
      | Outcome.diverge => Outcome.diverge
      | Outcome.exit code w => Outcome.exit code w
      | Outcome.ret data w =>
        match report data with
        | none => Outcome.diverge
        | some lines => Outcome.exit EXIT_SUCCESS { w with stdout := w.stdout ++ lines }

/-! ## Reading a log -/

/-- The system calls of one complete `cmos_read(offset)`, in order. -/
def cmosReadCalls (offset : Nat) : List Call :=
  [Call.open, Call.lseek 0x70, Call.write 0x70 offset, Call.lseek 0x80,
   Call.write 0x80 0x00, Call.lseek 0x71, Call.read 0x71, Call.close]

/-- Whether a call is a port operation: a write to a port or a read from one. -/
def isPortOp : Call → Bool
  | Call.write _ _ => true
  | Call.read _ => true
  | _ => false

/-- The port operations of a log, in order. -/
def portOps (log : List Event) : List Call :=
  (log.map Event.call).filter isPortOp

/-- The byte a successful `read` delivered. -/
def readByte (e : Event) : Option Byte :=
  match e.call, e.answer with
  | Call.read _, Answer.ok b => some b
  | _, _ => none

/-- The bytes delivered by the successful reads of a log, in order. -/
def readBytes (log : List Event) : List Byte :=
  log.filterMap readByte

/-- An event in which a call whose result the program checks (any call but
`close`) failed. -/
def isFailure (e : Event) : Bool :=
  e.call != Call.close && e.answer == Answer.fail

/-- The environment makes some checked call fail. -/
def EnvFails (env : Env) : Prop :=
  ∃ log c, c ≠ Call.close ∧ env log c = Answer.fail

/-- The system calls of a complete `cmos_read(offset)` between its `open` and
its `close`. -/
def cmosReadBody (offset : Nat) : List Call :=
  [Call.lseek 0x70, Call.write 0x70 offset, Call.lseek 0x80,
   Call.write 0x80 0x00, Call.lseek 0x71, Call.read 0x71]

/-- What a call may do to a port without changing the content of the CMOS:
write an offset below 128 to the index port 0x70, write 0x00 to the delay port
0x80, read the data port 0x71. Calls that touch no port are harmless. -/
def portSafe : Call → Bool
  | Call.write port value =>
    (port == 0x70 && decide (value < 128)) || (port == 0x80 && value == 0x00)
  | Call.read port => port == 0x71
  | _ => true

/-- The wording of the specification, read generously: the text holds a
`CapPrm:` field whose value parses as a hexadecimal number when somewhere in
it the label `CapPrm:` is followed, after optional white space, by a number
that `%lx` accepts. A status source for which this is `false` is malformed
under every reading of the specification. -/
def specHasCapPrmField : List Char → Bool
  | [] => false
  | c :: cs =>
    ("CapPrm:".toList.isPrefixOf (c :: cs) && (scanHex64 ((c :: cs).drop 7)).isSome)
      || specHasCapPrmField cs

/-! ## Bit-field arithmetic on bytes -/

theorem byte_high_nibble (b : Byte) : (b.val >>> 4) &&& 0xf = b.val / 16 := by
  have h : b.val / 16 < 2 ^ 4 := by have := b.isLt; omega
  rw [Nat.shiftRight_eq_div_pow]
  exact (Nat.and_pow_two_sub_one_eq_mod _ 4).trans (Nat.mod_eq_of_lt h)

theorem byte_low_nibble (b : Byte) : (b.val >>> 0) &&& 0xf = b.val % 16 :=
  Nat.and_pow_two_sub_one_eq_mod b.val 4

theorem byte_pair_eq (hi lo : Byte) : (hi.val <<< 8) ||| lo.val = 256 * hi.val + lo.val := by
  have h : hi.val <<< 8 = 2 ^ 8 * hi.val := by
    rw [Nat.shiftLeft_eq, Nat.mul_comm]
  rw [h, ← Nat.mul_add_lt_is_or lo.isLt hi.val]

theorem lookup_of_lt (tbl : List String) (i : Nat) (h : i < tbl.length) :
    lookup tbl i = Arg.str (tbl.get ⟨i, h⟩) := by
  unfold lookup
  rw [List.getElem?_eq_getElem h]
  rfl

theorem lookup_of_le (tbl : List String) (i : Nat) (h : tbl.length ≤ i) :
    lookup tbl i = Arg.undef := by
  unfold lookup
  rw [List.getElem?_eq_none h]

theorem lookup_eq_undef_iff (tbl : List String) (i : Nat) :
    lookup tbl i = Arg.undef ↔ tbl.length ≤ i := by
  constructor
  · intro h
    by_contra hlt
    rw [lookup_of_lt tbl i (Nat.lt_of_not_le hlt)] at h
    cases h
  · exact lookup_of_le tbl i

theorem undef_ne_lookup_masked (tbl : List String) (x m : Nat) (h : m < tbl.length) :
    Arg.undef ≠ lookup tbl (x &&& m) := by
  intro e
  have := (lookup_eq_undef_iff tbl (x &&& m)).mp e.symm
  have := @Nat.and_le_right x m
  omega

theorem undef_ne_ternary (c : Nat) (a b : String) : Arg.undef ≠ ternary c a b := by
  unfold ternary
  split <;> exact Arg.noConfusion

theorem undef_ne_extMemMarker (tmp : Nat) : Arg.undef ≠ extMemMarker tmp := by
  unfold extMemMarker
  split <;> exact Arg.noConfusion

theorem undef_ne_shutdownLabel (b : Nat) : Arg.undef ≠ shutdownLabel b := by
  unfold shutdownLabel
  split
  · next h =>
    intro e
    have := (lookup_eq_undef_iff cmos_shutdown_status b).mp e.symm
    have hl : cmos_shutdown_status.length = 12 := rfl
    omega
  · exact Arg.noConfusion

theorem undef_mem_decode_iff (data : CmosImage) :
    Arg.undef ∈ (decode data).flatMap Printf.args ↔
      (8 ≤ (data 0x10).val / 16 ∨ 8 ≤ (data 0x10).val % 16) := by
  have h1 := undef_ne_lookup_masked rate_selection (data 10).val 0xf (by decide)
  have h2 := undef_ne_lookup_masked divider ((data 10).val >>> 4) 0x7 (by decide)
  have h3 := undef_ne_lookup_masked hard_disk ((data 18).val >>> 4) 0xf (by decide)
  have h4 := undef_ne_lookup_masked hard_disk ((data 18).val >>> 0) 0xf (by decide)
  have h5 := undef_ne_lookup_masked primary_display ((data 20).val >>> 4) 3 (by decide)
  have h6 := undef_ne_shutdownLabel (data 15).val
  have f0 : Arg.undef = lookup floppy_disk (floppyIndex0 (data 16).val) ↔
      8 ≤ (data 16).val / 16 := by
    rw [eq_comm, lookup_eq_undef_iff, floppyIndex0, byte_high_nibble]
    rfl
  have f1 : Arg.undef = lookup floppy_disk (floppyIndex1 (data 16).val) ↔
      8 ≤ (data 16).val % 16 := by
    rw [eq_comm, lookup_eq_undef_iff, floppyIndex1, byte_low_nibble]
    rfl
  simp only [decode, reportClock, reportStatusA, reportStatusB, reportStatusCD,
    reportDiagnostic, reportShutdown, reportFloppy, reportHardDisk, reportInstalled,
    reportBaseMem, reportExtMem, reportTail,
    List.flatMap_append, List.flatMap_cons, List.flatMap_nil, List.mem_append,
    List.mem_cons, List.append_nil, List.nil_append, List.not_mem_nil, or_false, false_or,
    undef_ne_ternary, undef_ne_extMemMarker, h1, h2, h3, h4, h5, h6, f0, f1, reduceCtorEq]

/-! ## The decode pass: claims C1 to C8 -/

/-- C1 (evaluation at the failing input): in the image whose byte 0x10 is 0x80
and whose other bytes are 0, the index of the drive 0 lookup is 8, the table
`floppy_disk` has 8 entries, and the decode pass hands `printf` the result of
reading past the end of the table. In general the decode pass reads past the
end of a table exactly when a nibble of byte 0x10 is 8 or more: the lookups in
the other tables are always in range. -/
theorem floppy_lookup_past_table_end :
    floppyIndex0 (0x80 : Byte).val = 8 ∧ floppy_disk.length = 8 ∧
    (⟨"  Drive 0: %s\n", [Arg.undef]⟩ : Printf) ∈
      decode (fun i => if i = 0x10 then 0x80 else 0) ∧
    (∀ data : CmosImage,
      Arg.undef ∈ (decode data).flatMap Printf.args ↔
        (8 ≤ (data 0x10).val / 16 ∨ 8 ≤ (data 0x10).val % 16)) :=
  ⟨by decide, by decide, by decide, undef_mem_decode_iff⟩

/-- C2 (evaluation at the failing input): the check of line 219 tests the mask
against the capability number 17, that is against bits 0 and 4. A mask with
bit 17 alone is rejected, and `main` then exits with `EXIT_FAILURE` before any
system call on `/dev/port`; a mask with bit 0 alone is accepted; in general the
check passes exactly when bit 0 or bit 4 of the mask is set. -/
theorem privilege_check_tests_bits_0_and_4 :
    (privilegeMissing 0x20000 = true ∧ Nat.testBit 0x20000 17 = true) ∧
    (∀ (argv0 : String) (env : Env) (data0 : CmosImage),
      main (some "CapPrm:\t0000000000020000\n".toList) argv0 env data0 =
        Outcome.exit EXIT_FAILURE ⟨[], [], [ErrMsg.needCapability argv0]⟩) ∧
    (privilegeMissing 0x1 = false ∧ Nat.testBit 0x1 17 = false) ∧
    (∀ caps : Nat,
      privilegeMissing caps = false ↔ (caps.testBit 0 = true ∨ caps.testBit 4 = true)) := by
  refine ⟨by decide, fun _ _ _ => rfl, by decide, ?_⟩
  intro caps
  have h17 : ∀ i, Nat.testBit 17 i = (decide (i = 0) || decide (i = 4)) := by
    intro i
    by_cases h : i < 5
    · interval_cases i <;> decide
    · have : 17 < 2 ^ i :=
        lt_of_lt_of_le (by decide : 17 < 2 ^ 5) (Nat.pow_le_pow_right (by decide) (by omega))
      rw [Nat.testBit_lt_two_pow this]
      have h0 : i ≠ 0 := by omega
      have h4 : i ≠ 4 := by omega
      simp [h0, h4]
  have key : (caps &&& 17 = 0) ↔ (caps.testBit 0 = false ∧ caps.testBit 4 = false) := by
    constructor
    · intro h
      have e0 := Nat.testBit_and caps 17 0
      have e4 := Nat.testBit_and caps 17 4
      rw [h] at e0 e4
      rw [h17] at e0 e4
      have d0 : (decide (0 = 0) || decide (0 = 4)) = true := by decide
      have d4 : (decide (4 = 0) || decide (4 = 4)) = true := by decide
      rw [d0, Bool.and_true] at e0
      rw [d4, Bool.and_true] at e4
      exact ⟨e0.symm, e4.symm⟩
    · rintro ⟨e0, e4⟩
      apply Nat.eq_of_testBit_eq
      intro i
      rw [Nat.testBit_and, h17, Nat.zero_testBit]
      by_cases h0 : i = 0
      · subst h0; rw [e0]; rfl
      · by_cases h4 : i = 4
        · subst h4; rw [e4]; rfl
        · simp [h0, h4]
  unfold privilegeMissing CAP_SYS_RAWIO
  rw [beq_eq_false_iff_ne, Ne, key]
  cases caps.testBit 0 <;> cases caps.testBit 4 <;> simp

/-- C3 (counterexample): with byte 0x0F equal to 0x0A the shutdown-status line
does not carry the label "Used by 80386". -/
theorem shutdown_label_0x0A_not_used_by_80386 :
    ¬ (reportShutdown (fun _ => 0x00) =
        [⟨"CMOS Shutdown Status: (CMOS 0x0f): 0x%2.2x (%s)\n\n",
          [Arg.num 0x00, Arg.str "Power on or soft reset"]⟩] ∧
       reportShutdown (fun _ => 0x0A) =
        [⟨"CMOS Shutdown Status: (CMOS 0x0f): 0x%2.2x (%s)\n\n",
          [Arg.num 0x0A, Arg.str "Used by 80386"]⟩]) := by
  decide

/-- C3 (amended): for every image whose byte at offset 0x0F is 0x00 the
shutdown-status line carries the label "Power on or soft reset", and for every
image whose byte at offset 0x0F is 0x0A it carries the label
"Jmp via 40h:67h". -/
theorem shutdown_label_0x00_and_0x0A (data : CmosImage) :
    reportShutdown (Function.update data 15 0x00) =
      [⟨"CMOS Shutdown Status: (CMOS 0x0f): 0x%2.2x (%s)\n\n",
        [Arg.num 0x00, Arg.str "Power on or soft reset"]⟩] ∧
    reportShutdown (Function.update data 15 0x0A) =
      [⟨"CMOS Shutdown Status: (CMOS 0x0f): 0x%2.2x (%s)\n\n",
        [Arg.num 0x0A, Arg.str "Jmp via 40h:67h"]⟩] := by
  unfold reportShutdown
  simp only [Function.update_same]
  decide

/-- C4: for every image, with `v` the byte at offset 0x0F: if `v ≥ 11` the
shutdown-status line carries the fixed label "Perform power-on reset"; if
`v ≤ 10` it carries the entry at index `v` of `cmos_shutdown_status`, and that
entry is not the fallback label. -/
theorem shutdown_label_boundary (data : CmosImage) :
    (11 ≤ (data 15).val →
      reportShutdown data =
        [⟨"CMOS Shutdown Status: (CMOS 0x0f): 0x%2.2x (%s)\n\n",
          [Arg.num (data 15).val, Arg.str "Perform power-on reset"]⟩]) ∧
    ((data 15).val ≤ 10 →
      ∃ s, cmos_shutdown_status[(data 15).val]? = some s ∧
        s ≠ "Perform power-on reset" ∧
        reportShutdown data =
          [⟨"CMOS Shutdown Status: (CMOS 0x0f): 0x%2.2x (%s)\n\n",
            [Arg.num (data 15).val, Arg.str s]⟩]) := by
  unfold reportShutdown shutdownLabel
  generalize (data 15).val = v
  constructor
  · intro h
    rw [if_neg (by omega)]
  · intro h
    rw [if_pos (by omega)]
    have hlt : v < cmos_shutdown_status.length :=
      lt_of_le_of_lt h (by decide)
    refine ⟨cmos_shutdown_status.get ⟨v, hlt⟩, List.getElem?_eq_getElem hlt, ?_, ?_⟩
    · intro e
      have hmem : "Perform power-on reset" ∈ cmos_shutdown_status :=
        e ▸ List.get_mem cmos_shutdown_status v hlt
      exact absurd hmem (by decide)
    · rw [lookup_of_lt _ _ hlt]

/-- C4 (at the boundary): byte 10 yields entry 10 of the table, byte 11 the
fallback label. -/
theorem shutdown_label_boundary_witness :
    reportShutdown (fun _ => 11) =
      [⟨"CMOS Shutdown Status: (CMOS 0x0f): 0x%2.2x (%s)\n\n",
        [Arg.num 11, Arg.str "Perform power-on reset"]⟩] ∧
    ∃ s, cmos_shutdown_status[10]? = some s ∧ s ≠ "Perform power-on reset" ∧
      reportShutdown (fun _ => 10) =
        [⟨"CMOS Shutdown Status: (CMOS 0x0f): 0x%2.2x (%s)\n\n",
          [Arg.num 10, Arg.str s]⟩] :=
  ⟨(shutdown_label_boundary (fun _ => 11)).1 (by decide),
   (shutdown_label_boundary (fun _ => 10)).2 (by decide)⟩

/-- C5 (counterexample): byte 0x41 at offset 0x10 does not decode to
drive 0 = "1.2MB 5.25\" Drive" and drive 1 = "1.44MB 3.5\" Drive". -/
theorem floppy_0x41_not_as_claimed :
    reportFloppy (fun _ => 0x41) ≠
      [⟨"Floppy Disk Type: (CMOS 0x10): 0x%2.2x\n", [Arg.num 0x41]⟩,
       ⟨"  Drive 0: %s\n", [Arg.str "1.2MB 5.25\" Drive"]⟩,
       ⟨"  Drive 1: %s\n", [Arg.str "1.44MB 3.5\" Drive"]⟩,
       ⟨"\n", []⟩] := by
  decide

/-- C5 (amended): for every image the drive 0 line is the entry of
`floppy_disk` at the high nibble of byte 0x10 and the drive 1 line the entry at
its low nibble; entry 4 is "1.44MB 3.5\" Drive" and entry 1 is
"360KB 5.25\" Drive", so byte 0x41 decodes to drive 0 = "1.44MB 3.5\" Drive"
and drive 1 = "360KB 5.25\" Drive". -/
theorem floppy_nibbles (data : CmosImage) :
    reportFloppy data =
      [⟨"Floppy Disk Type: (CMOS 0x10): 0x%2.2x\n", [Arg.num (data 16).val]⟩,
       ⟨"  Drive 0: %s\n", [lookup floppy_disk ((data 16).val / 16)]⟩,
       ⟨"  Drive 1: %s\n", [lookup floppy_disk ((data 16).val % 16)]⟩,
       ⟨"\n", []⟩] ∧
    lookup floppy_disk 4 = Arg.str "1.44MB 3.5\" Drive" ∧
    lookup floppy_disk 1 = Arg.str "360KB 5.25\" Drive" ∧
    reportFloppy (Function.update data 16 0x41) =
      [⟨"Floppy Disk Type: (CMOS 0x10): 0x%2.2x\n", [Arg.num 0x41]⟩,
       ⟨"  Drive 0: %s\n", [Arg.str "1.44MB 3.5\" Drive"]⟩,
       ⟨"  Drive 1: %s\n", [Arg.str "360KB 5.25\" Drive"]⟩,
       ⟨"\n", []⟩] := by
  refine ⟨?_, by decide, by decide, ?_⟩
  · unfold reportFloppy floppyIndex0 floppyIndex1
    rw [byte_high_nibble, byte_low_nibble]
  · unfold reportFloppy
    simp only [Function.update_same]
    decide

/-- C6 (evaluation at the failing input): in the image whose byte 0x17 is 1
and whose other bytes are 0, `(byte[0x18] << 8) | byte[0x17]` is 1 but the
extended-memory line reports 0K next to the hex digits 0001; in the image
whose byte 0x19 is 1 and whose other bytes are 0 it reports 1K. The value is
composed from bytes 0x18 and 0x19. -/
theorem ext_mem_composed_from_0x18_and_0x19 :
    reportExtMem (fun i => if i = 0x17 then 1 else 0) =
      [⟨"Extended Mem: (CMOS 0x18):\n", []⟩,
       ⟨"  0x%2.2x%2.2x (%uK) %s\n", [Arg.num 0, Arg.num 1, Arg.num 0, Arg.str ""]⟩,
       ⟨"\n", []⟩] ∧
    reportExtMem (fun i => if i = 0x19 then 1 else 0) =
      [⟨"Extended Mem: (CMOS 0x18):\n", []⟩,
       ⟨"  0x%2.2x%2.2x (%uK) %s\n", [Arg.num 0, Arg.num 0, Arg.num 1, Arg.str ""]⟩,
       ⟨"\n", []⟩] ∧
    (∀ data : CmosImage, extMem data = 256 * (data 0x18).val + (data 0x19).val) := by
  refine ⟨by decide, by decide, ?_⟩
  intro data
  unfold extMem
  have h1 := (data 24).isLt
  have h2 := (data 25).isLt
  rw [byte_pair_eq]
  exact Nat.mod_eq_of_lt (by omega)

/-- C7: for every image the base-memory size stored in the 16-bit temporary
and printed in kilobytes is `(byte[0x16] << 8) | byte[0x15]`, which is
`256 * byte[0x16] + byte[0x15]`: the reduction modulo 2^16 changes nothing.
With `byte[0x15] = 0x00` and `byte[0x16] = 0x02` it is 512. -/
theorem base_mem_value (data : CmosImage) :
    baseMem data = ((data 0x16).val <<< 8) ||| (data 0x15).val ∧
    baseMem data = 256 * (data 0x16).val + (data 0x15).val ∧
    reportBaseMem data =
      [⟨"Base Mem: (CMOS 0x16):\n", []⟩,
       ⟨"  0x%2.2x%2.2x (%uK)\n",
        [Arg.num (data 0x16).val, Arg.num (data 0x15).val,
         Arg.num (((data 0x16).val <<< 8) ||| (data 0x15).val)]⟩,
       ⟨"\n", []⟩] ∧
    (data 0x15 = 0x00 → data 0x16 = 0x02 → baseMem data = 512) := by
  have h1 := (data 22).isLt
  have h2 := (data 21).isLt
  have e : baseMem data = ((data 22).val <<< 8) ||| (data 21).val := by
    unfold baseMem
    rw [byte_pair_eq]
    exact Nat.mod_eq_of_lt (by omega)
  refine ⟨e, e.trans (byte_pair_eq _ _), ?_, ?_⟩
  · unfold reportBaseMem
    rw [e]
  · intro h15 h16
    have a : data 21 = 0 := h15
    have b : data 22 = 2 := h16
    rw [e, a, b]
    rfl

/-- C7 (instance): the image whose byte 0x16 is 0x02 and whose other bytes are
0x00 decodes to a base memory of 512K. -/
theorem base_mem_value_witness :
    baseMem (fun i => if i = 0x16 then 0x02 else 0x00) = 512 :=
  (base_mem_value (fun i => if i = 0x16 then 0x02 else 0x00)).2.2.2 rfl rfl

/-- C8: for every image the extended-memory line has the form
`0x.... (<tmp>K) <marker>`, and the marker is "[untrustworthy]" exactly when
the value `tmp` printed on that line is greater than 16384; otherwise the
marker is the empty string. -/
theorem ext_mem_marker_iff (data : CmosImage) :
    ∃ tmp marker,
      reportExtMem data =
        [⟨"Extended Mem: (CMOS 0x18):\n", []⟩,
         ⟨"  0x%2.2x%2.2x (%uK) %s\n",
          [Arg.num (data 0x18).val, Arg.num (data 0x17).val, Arg.num tmp, marker]⟩,
         ⟨"\n", []⟩] ∧
      (marker = Arg.str "[untrustworthy]" ↔ 16384 < tmp) ∧
      (marker = Arg.str "" ↔ tmp ≤ 16384) := by
  refine ⟨extMem data, extMemMarker (extMem data), rfl, ?_, ?_⟩
  · unfold extMemMarker
    by_cases h : extMem data > 16 * 1024
    · rw [if_pos h]
      exact ⟨fun _ => h, fun _ => rfl⟩
    · rw [if_neg h]
      exact ⟨fun e => absurd e (by decide), fun g => absurd g h⟩
  · unfold extMemMarker
    by_cases h : extMem data > 16 * 1024
    · rw [if_pos h]
      exact ⟨fun e => absurd e (by decide), fun g => absurd h (by omega)⟩
    · rw [if_neg h]
      exact ⟨fun _ => by omega, fun _ => rfl⟩

/-- C8 (at the boundary): a line reporting 16384K carries no marker and a line
reporting 16385K carries the marker. -/
theorem ext_mem_marker_boundary :
    reportExtMem (fun i => if i = 0x18 then 0x40 else 0) =
      [⟨"Extended Mem: (CMOS 0x18):\n", []⟩,
       ⟨"  0x%2.2x%2.2x (%uK) %s\n",
        [Arg.num 0x40, Arg.num 0, Arg.num 16384, Arg.str ""]⟩,
       ⟨"\n", []⟩] ∧
    reportExtMem (fun i => if i = 0x18 then 0x40 else if i = 0x19 then 1 else 0) =
      [⟨"Extended Mem: (CMOS 0x18):\n", []⟩,
       ⟨"  0x%2.2x%2.2x (%uK) %s\n",
        [Arg.num 0x40, Arg.num 0, Arg.num 16385, Arg.str "[untrustworthy]"]⟩,
       ⟨"\n", []⟩] := by
  decide

/-! ## The port accessor: auxiliary facts -/

theorem port_seek_cases (env : Env) (offset : Byte) (w : World) :
    (∃ w1, port_seek env offset w = (none, w1) ∧ w1.stdout = w.stdout ∧ EnvFails env) ∨
    (∃ b, port_seek env offset w =
      (some (), { w with log := w.log ++ [⟨Call.lseek offset.val, Answer.ok b⟩] })) := by
  unfold port_seek sys
  cases h : env w.log (Call.lseek offset.val) with
  | fail => exact Or.inl ⟨_, rfl, rfl, _, _, by simp, h⟩
  | ok b => exact Or.inr ⟨b, rfl⟩

theorem port_write_cases (env : Env) (offset value : Byte) (w : World) :
    (∃ w1, port_write env offset value w = (none, w1) ∧ w1.stdout = w.stdout ∧
      EnvFails env) ∨
    (∃ b1 b2, port_write env offset value w =
      (some (), { w with log := w.log ++
        [⟨Call.lseek offset.val, Answer.ok b1⟩,
         ⟨Call.write offset.val value.val, Answer.ok b2⟩] })) := by
  unfold port_write
  rcases port_seek_cases env offset w with ⟨w1, h1, hs, hf⟩ | ⟨b1, h1⟩
  · rw [h1]; exact Or.inl ⟨w1, rfl, hs, hf⟩
  · rw [h1]
    simp only [sys]
    cases h : env (w.log ++ [⟨Call.lseek offset.val, Answer.ok b1⟩])
        (Call.write offset.val value.val) with
    | fail => exact Or.inl ⟨_, rfl, rfl, _, _, by simp, h⟩
    | ok b2 => exact Or.inr ⟨b1, b2, by simp⟩

theorem port_read_cases (env : Env) (offset : Byte) (w : World) :
    (∃ w1, port_read env offset w = (none, w1) ∧ w1.stdout = w.stdout ∧ EnvFails env) ∨
    (∃ b1 b, port_read env offset w =
      (some b, { w with log := w.log ++
        [⟨Call.lseek offset.val, Answer.ok b1⟩,
         ⟨Call.read offset.val, Answer.ok b⟩] })) := by
  unfold port_read
  rcases port_seek_cases env offset w with ⟨w1, h1, hs, hf⟩ | ⟨b1, h1⟩
  · rw [h1]; exact Or.inl ⟨w1, rfl, hs, hf⟩
  · rw [h1]
    simp only [sys]
    cases h : env (w.log ++ [⟨Call.lseek offset.val, Answer.ok b1⟩])
        (Call.read offset.val) with
    | fail => exact Or.inl ⟨_, rfl, rfl, _, _, by simp, h⟩
    | ok b2 => exact Or.inr ⟨b1, b2, by simp⟩

theorem cmos_read_cases (env : Env) (offset : Byte) (w : World) :
    (∃ w1, cmos_read env offset w = Outcome.exit EXIT_FAILURE w1 ∧
      w1.stdout = w.stdout ∧ EnvFails env) ∨
    (∃ b evs, cmos_read env offset w = Outcome.ret b { w with log := w.log ++ evs } ∧
      evs.map Event.call = cmosReadCalls offset.val ∧ readBytes evs = [b] ∧
      ∀ e ∈ evs, isFailure e = false) := by
  unfold cmos_read
  simp only [sys]
  cases h0 : env w.log Call.open with
  | fail => exact Or.inl ⟨_, rfl, rfl, _, _, by simp, h0⟩
  | ok b0 =>
    simp only []
    rcases port_write_cases env 0x70 offset
        { w with log := w.log ++ [⟨Call.open, Answer.ok b0⟩] } with
      ⟨w1, h1, hs1, hf1⟩ | ⟨b1, b2, h1⟩
    · rw [h1]; exact Or.inl ⟨_, rfl, hs1, hf1⟩
    · rw [h1]
      simp only []
      rcases port_write_cases env 0x80 0x00
          { w with log := w.log ++ [⟨Call.open, Answer.ok b0⟩] ++
            [⟨Call.lseek (0x70 : Byte).val, Answer.ok b1⟩,
             ⟨Call.write (0x70 : Byte).val offset.val, Answer.ok b2⟩] } with
        ⟨w2, h2, hs2, hf2⟩ | ⟨b3, b4, h2⟩
      · rw [h2]; exact Or.inl ⟨_, rfl, hs2, hf2⟩
      · rw [h2]
        simp only []
        rcases port_read_cases env 0x71
            { w with log := w.log ++ [⟨Call.open, Answer.ok b0⟩] ++
              [⟨Call.lseek (0x70 : Byte).val, Answer.ok b1⟩,
               ⟨Call.write (0x70 : Byte).val offset.val, Answer.ok b2⟩] ++
              [⟨Call.lseek (0x80 : Byte).val, Answer.ok b3⟩,
               ⟨Call.write (0x80 : Byte).val (0x00 : Byte).val, Answer.ok b4⟩] } with
          ⟨w3, h3, hs3, hf3⟩ | ⟨b5, b, h3⟩
        · rw [h3]; exact Or.inl ⟨_, rfl, hs3, hf3⟩
        · rw [h3]
          refine Or.inr ⟨b, [⟨Call.open, Answer.ok b0⟩,
            ⟨Call.lseek 0x70, Answer.ok b1⟩, ⟨Call.write 0x70 offset.val, Answer.ok b2⟩,
            ⟨Call.lseek 0x80, Answer.ok b3⟩, ⟨Call.write 0x80 0x00, Answer.ok b4⟩,
            ⟨Call.lseek 0x71, Answer.ok b5⟩, ⟨Call.read 0x71, Answer.ok b⟩,
            ⟨Call.close, env (w.log ++ [⟨Call.open, Answer.ok b0⟩,
              ⟨Call.lseek 0x70, Answer.ok b1⟩, ⟨Call.write 0x70 offset.val, Answer.ok b2⟩,
              ⟨Call.lseek 0x80, Answer.ok b3⟩, ⟨Call.write 0x80 0x00, Answer.ok b4⟩,
              ⟨Call.lseek 0x71, Answer.ok b5⟩, ⟨Call.read 0x71, Answer.ok b⟩])
              Call.close⟩], ?_, rfl, ?_, ?_⟩
          · simp only [List.append_assoc, List.cons_append, List.nil_append]
            rfl
          · simp [readBytes, readByte]
          · intro e he
            simp at he
            rcases he with rfl | rfl | rfl | rfl | rfl | rfl | rfl | rfl <;> rfl

theorem readBytes_append (l1 l2 : List Event) :
    readBytes (l1 ++ l2) = readBytes l1 ++ readBytes l2 := by
  unfold readBytes
  exact List.filterMap_append l1 l2 readByte

theorem world_append_nil (w : World) : ({ w with log := w.log ++ [] } : World) = w := by
  cases w
  simp

theorem captureLoop_cases (env : Env) :
    ∀ (fuel i : Nat) (data : CmosImage) (w : World), i ≤ 128 → 128 - i ≤ fuel →
      (∃ w1, captureLoop env fuel i data w = Outcome.exit EXIT_FAILURE w1 ∧
        w1.stdout = w.stdout ∧ EnvFails env) ∨
      (∃ data1 evs,
        captureLoop env fuel i data w = Outcome.ret data1 { w with log := w.log ++ evs } ∧
        evs.map Event.call = (List.range' i (128 - i)).flatMap cmosReadCalls ∧
        readBytes evs = (List.range' i (128 - i)).map (fun j => data1 (Fin.ofNat j)) ∧
        (∀ j : Fin 128, j.val < i → data1 j = data j) ∧
        (∀ e ∈ evs, isFailure e = false)) := by
  have done : ∀ (data : CmosImage) (w : World),
      ∃ data1 evs,
        Outcome.ret data w = Outcome.ret data1 { w with log := w.log ++ evs } ∧
        evs.map Event.call = (List.range' 128 (128 - 128)).flatMap cmosReadCalls ∧
        readBytes evs = (List.range' 128 (128 - 128)).map (fun j => data1 (Fin.ofNat j)) ∧
        (∀ j : Fin 128, j.val < 128 → data1 j = data j) ∧
        (∀ e ∈ evs, isFailure e = false) := by
    intro data w
    refine ⟨data, [], ?_, rfl, rfl, fun _ _ => rfl, ?_⟩
    · rw [world_append_nil]
    · intro e he; cases he
  intro fuel
  induction fuel with
  | zero =>
    intro i data w hi hf
    have e : i = 128 := by omega
    subst e
    right
    unfold captureLoop
    rw [if_neg (by decide)]
    exact done data w
  | succ fuel ih =>
    intro i data w hi hf
    unfold captureLoop
    by_cases h : i < 128
    · rw [dif_pos h]
      rcases cmos_read_cases env (Fin.ofNat i) w with ⟨w1, h1, hs1, hf1⟩ | ⟨b, evs1, h1, hc1, hr1, ha1⟩
      · rw [h1]
        exact Or.inl ⟨w1, rfl, hs1, hf1⟩
      · rw [h1]
        simp only []
        have hmod : (i + 1) % 256 = i + 1 := Nat.mod_eq_of_lt (by omega)
        rw [hmod]
        rcases ih (i + 1) (Function.update data ⟨i, h⟩ b) { w with log := w.log ++ evs1 }
            (by omega) (by omega) with ⟨w2, h2, hs2, hf2⟩ | ⟨data1, evs2, h2, hc2, hr2, hd2, ha2⟩
        · rw [h2]
          exact Or.inl ⟨w2, rfl, hs2, hf2⟩
        · rw [h2]
          have hlen : 128 - i = (128 - (i + 1)) + 1 := by omega
          have hval : (Fin.ofNat i : Byte).val = i := Nat.mod_eq_of_lt (by omega)
          have hidx : (Fin.ofNat i : Fin 128) = ⟨i, h⟩ := Fin.ext (Nat.mod_eq_of_lt h)
          have hb : data1 ⟨i, h⟩ = b := by
            rw [hd2 ⟨i, h⟩ (Nat.lt_succ_self i)]
            exact Function.update_same _ _ _
          refine Or.inr ⟨data1, evs1 ++ evs2, ?_, ?_, ?_, ?_, ?_⟩
          · simp only [List.append_assoc]
          · rw [List.map_append, hc1, hc2, hlen, List.range'_succ, List.flatMap_cons, hval]
          · rw [readBytes_append, hr1, hr2, hlen, List.range'_succ, List.map_cons, hidx, hb]
            rfl
          · intro j hj
            rw [hd2 j (by omega)]
            exact Function.update_noteq (fun e => by rw [e] at hj; exact absurd hj (lt_irrefl _)) _ _
          · intro e he
            rcases List.mem_append.mp he with he | he
            · exact ha1 e he
            · exact ha2 e he
    · rw [dif_neg h]
      have e : i = 128 := by omega
      subst e
      exact Or.inr (done data w)

/-! ## Termination of the loops -/

theorem hexLoop_eq (data : CmosImage) :
    hexLoop data counterStates 0 =
      some ((List.range 16).map (fun k => hexRow data (8 * k))) := by
  rfl

theorem report_eq (data : CmosImage) :
    report data =
      some ([⟨"CMOS Memory Dump:\n", []⟩] ++ (List.range 16).map (fun k => hexRow data (8 * k))
        ++ [⟨"\n", []⟩] ++ decode data) := by
  unfold report
  rw [hexLoop_eq]
  rfl

theorem fgetsChunk_rest_le : ∀ (k : Nat) (cs : List Char),
    (fgetsChunk k cs).2.length ≤ cs.length := by
  intro k
  induction k with
  | zero => intro cs; exact le_refl _
  | succ k ih =>
    intro cs
    cases cs with
    | nil => exact le_refl _
    | cons c cs =>
      unfold fgetsChunk
      by_cases h : c = '\n'
      · rw [if_pos h]; exact Nat.le_succ _
      · rw [if_neg h]; exact le_trans (ih cs) (Nat.le_succ _)

theorem fgetsChunk_rest_lt (k : Nat) (c : Char) (cs : List Char) :
    (fgetsChunk (k + 1) (c :: cs)).2.length < (c :: cs).length := by
  unfold fgetsChunk
  by_cases h : c = '\n'
  · rw [if_pos h]; exact Nat.lt_succ_self _
  · rw [if_neg h]; exact Nat.lt_succ_of_le (fgetsChunk_rest_le k cs)

theorem capabilitiesLoop_terminates : ∀ (fuel : Nat) (input : List Char),
    input.length ≤ fuel → ∃ flags, capabilitiesLoop fuel input = some flags := by
  intro fuel
  induction fuel with
  | zero =>
    intro input h
    have e : input = [] := List.length_eq_zero.mp (Nat.le_zero.mp h)
    subst e
    exact ⟨0, by unfold capabilitiesLoop; rfl⟩
  | succ fuel ih =>
    intro input h
    cases input with
    | nil => exact ⟨0, by unfold capabilitiesLoop; rfl⟩
    | cons c cs =>
      unfold capabilitiesLoop
      have hg : fgets (1024 - 1) (c :: cs) = some (fgetsChunk (1021 + 1) (c :: cs)) := rfl
      rw [hg]
      simp only []
      by_cases hs : strstr (cstr (fgetsChunk (1021 + 1) (c :: cs)).1) "CapPrm:".toList = true
      · rw [if_pos hs]
        cases sscanfFlags (cstr (fgetsChunk (1021 + 1) (c :: cs)).1) with
        | none => exact ⟨0, rfl⟩
        | some v => exact ⟨v, rfl⟩
      · rw [if_neg hs]
        have hlt := fgetsChunk_rest_lt 1021 c cs
        exact ih _ (by
          have h2 : (c :: cs).length ≤ fuel + 1 := h
          omega)

theorem get_capabilities_terminates (status : Option (List Char)) :
    ∃ caps, get_capabilities status = some caps := by
  cases status with
  | none => exact ⟨0, rfl⟩
  | some content => exact capabilitiesLoop_terminates _ _ (le_refl _)

/-! ## The runs of `main` -/

theorem image_eq_ofFn (data : CmosImage) :
    (List.range' 0 (128 - 0)).map (fun j => data (Fin.ofNat j)) = List.ofFn data := by
  rfl

theorem filter_portOps_flatMap (l : List Nat) :
    (l.flatMap cmosReadCalls).filter isPortOp =
      l.flatMap (fun i => [Call.write 0x70 i, Call.write 0x80 0x00, Call.read 0x71]) := by
  induction l with
  | nil => rfl
  | cons i l ih =>
    rw [List.flatMap_cons, List.filter_append, ih, List.flatMap_cons]
    rfl

theorem portOps_of_calls (log : List Event)
    (h : log.map Event.call = (List.range 128).flatMap cmosReadCalls) :
    portOps log =
      (List.range 128).flatMap
        (fun i => [Call.write 0x70 i, Call.write 0x80 0x00, Call.read 0x71]) := by
  unfold portOps
  rw [h]
  exact filter_portOps_flatMap _

theorem length_portOps_flatMap (l : List Nat) :
    (l.flatMap
      (fun i => [Call.write 0x70 i, Call.write 0x80 0x00, Call.read 0x71])).length
      = 3 * l.length := by
  induction l with
  | nil => rfl
  | cons i l ih =>
    rw [List.flatMap_cons, List.length_append, ih, List.length_cons]
    simp only [List.length_cons, List.length_nil]
    omega

theorem main_cases (status : Option (List Char)) (argv0 : String) (env : Env)
    (data0 : CmosImage) :
    (∃ w, main status argv0 env data0 = Outcome.exit EXIT_FAILURE w ∧ w.stdout = [] ∧
      ((∃ caps, get_capabilities status = some caps ∧ privilegeMissing caps = true) ∨
        EnvFails env)) ∨
    (∃ data log lines,
      main status argv0 env data0 = Outcome.exit EXIT_SUCCESS ⟨log, lines, []⟩ ∧
      report data = some lines ∧
      log.map Event.call = (List.range 128).flatMap cmosReadCalls ∧
      readBytes log = List.ofFn data ∧
      (∀ e ∈ log, isFailure e = false)) := by
  obtain ⟨caps, hcaps⟩ := get_capabilities_terminates status
  have hmain : main status argv0 env data0 =
      if privilegeMissing caps = true then
        Outcome.exit EXIT_FAILURE (complain (ErrMsg.needCapability argv0) ⟨[], [], []⟩)
      else
        match captureLoop env counterStates 0 data0 ⟨[], [], []⟩ with
        | Outcome.diverge => Outcome.diverge
        | Outcome.exit code w => Outcome.exit code w
        | Outcome.ret data w =>
          match report data with
          | none => Outcome.diverge
          | some lines => Outcome.exit EXIT_SUCCESS { w with stdout := w.stdout ++ lines } := by
    unfold main
    rw [hcaps]
  rw [hmain]
  by_cases hp : privilegeMissing caps = true
  · rw [if_pos hp]
    exact Or.inl ⟨_, rfl, rfl, Or.inl ⟨caps, hcaps, hp⟩⟩
  · rw [if_neg hp]
    rcases captureLoop_cases env counterStates 0 data0 ⟨[], [], []⟩ (by decide) (by decide)
      with ⟨w1, h1, hs1, hf1⟩ | ⟨data, evs, h1, hc, hr, _, ha⟩
    · rw [h1]
      exact Or.inl ⟨w1, rfl, hs1, Or.inr hf1⟩
    · rw [h1]
      simp only []
      rw [report_eq]
      refine Or.inr ⟨data, evs, _, ?_, report_eq data, hc, ?_, ha⟩
      · simp only [List.nil_append]
      · rw [hr, image_eq_ofFn]

/-! ## The capture: claims C9 and C10 -/

/-- C9: when the privilege check passes and every call whose result the
program checks succeeds, `main` ends with `exit(EXIT_SUCCESS)` after exactly
the system calls of `cmos_read(0)`, ..., `cmos_read(127)` in this order. Its
port operations are, for `i = 0, ..., 127` in ascending order, the write of
`i` to port 0x70, the write of 0x00 to port 0x80 and the read of port 0x71,
384 operations in all. The byte delivered by the `i`-th read is `data[i]` of
the image whose report is written to the standard output. -/
theorem capture_protocol (status : Option (List Char)) (argv0 : String) (env : Env)
    (data0 : CmosImage)
    (hpriv : ∃ caps, get_capabilities status = some caps ∧ privilegeMissing caps = false)
    (hok : ∀ log c, c ≠ Call.close → env log c ≠ Answer.fail) :
    ∃ data w,
      main status argv0 env data0 = Outcome.exit EXIT_SUCCESS w ∧
      w.log.map Event.call = (List.range 128).flatMap cmosReadCalls ∧
      portOps w.log =
        (List.range 128).flatMap
          (fun i => [Call.write 0x70 i, Call.write 0x80 0x00, Call.read 0x71]) ∧
      (portOps w.log).length = 384 ∧
      readBytes w.log = List.ofFn data ∧
      report data = some w.stdout := by
  rcases main_cases status argv0 env data0 with
    ⟨w, _, _, hwhy⟩ | ⟨data, log, lines, hm, hrep, hc, hr, _⟩
  · exfalso
    rcases hwhy with ⟨caps, hcaps, hmiss⟩ | ⟨log, c, hc, hfail⟩
    · obtain ⟨caps1, hcaps1, hhas⟩ := hpriv
      rw [hcaps] at hcaps1
      cases hcaps1
      rw [hmiss] at hhas
      cases hhas
    · exact hok log c hc hfail
  · refine ⟨data, ⟨log, lines, []⟩, hm, hc, portOps_of_calls log hc, ?_, hr, hrep⟩
    rw [portOps_of_calls log hc, length_portOps_flatMap, List.length_range]

/-- C9 (instance): a process whose `CapPrm` is `000001ffffffffff`, on a system
where every call succeeds and a read delivers the number of calls made so
far. -/
theorem capture_protocol_witness :
    ∃ data w,
      main (some "CapPrm:\t000001ffffffffff\n".toList) "cmos-dump"
        (fun log _ => Answer.ok (Fin.ofNat log.length)) (fun _ => 0)
        = Outcome.exit EXIT_SUCCESS w ∧
      w.log.map Event.call = (List.range 128).flatMap cmosReadCalls ∧
      portOps w.log =
        (List.range 128).flatMap
          (fun i => [Call.write 0x70 i, Call.write 0x80 0x00, Call.read 0x71]) ∧
      (portOps w.log).length = 384 ∧
      readBytes w.log = List.ofFn data ∧
      report data = some w.stdout :=
  capture_protocol (some "CapPrm:\t000001ffffffffff\n".toList) "cmos-dump"
    (fun log _ => Answer.ok (Fin.ofNat log.length)) (fun _ => 0)
    ⟨0x1ffffffffff, rfl, rfl⟩
    (fun _ _ _ h => Answer.noConfusion h)

/-- C10: `main` always ends with a call of `exit`. If any call whose result
the program checks (an `open`, an `lseek`, a `write` or a `read`) failed
during the run, the exit code is `EXIT_FAILURE` and nothing was written to
the standard output. If anything was written to the standard output, the exit
code is `EXIT_SUCCESS`, no such call failed, and 128 reads delivered a
byte. -/
theorem capture_all_or_nothing (status : Option (List Char)) (argv0 : String)
    (env : Env) (data0 : CmosImage) :
    ∃ code w,
      main status argv0 env data0 = Outcome.exit code w ∧
      ((∃ e ∈ w.log, isFailure e = true) → code = EXIT_FAILURE ∧ w.stdout = []) ∧
      (w.stdout ≠ [] →
        code = EXIT_SUCCESS ∧ (∀ e ∈ w.log, isFailure e = false) ∧
        (readBytes w.log).length = 128) := by
  rcases main_cases status argv0 env data0 with
    ⟨w, hm, hs, _⟩ | ⟨data, log, lines, hm, _, _, hr, ha⟩
  · exact ⟨EXIT_FAILURE, w, hm, fun _ => ⟨rfl, hs⟩, fun h => absurd hs h⟩
  · refine ⟨EXIT_SUCCESS, ⟨log, lines, []⟩, hm, ?_, fun _ => ⟨rfl, ha, ?_⟩⟩
    · rintro ⟨e, he, hf⟩
      rw [ha e he] at hf
      cases hf
    · show (readBytes log).length = 128
      rw [hr, List.length_ofFn]

/-- C10 (instance): on a system where the 47th call, the read of the data port
for offset 5, fails and every other call succeeds, the run logs a failed read,
exits with `EXIT_FAILURE` and writes nothing to the standard output. -/
theorem capture_all_or_nothing_witness :
    ∃ code w,
      main (some "CapPrm:\t000001ffffffffff\n".toList) "cmos-dump"
        (fun log _ => if log.length = 46 then Answer.fail else Answer.ok 0) (fun _ => 0)
        = Outcome.exit code w ∧
      ⟨Call.read 0x71, Answer.fail⟩ ∈ w.log ∧
      (∃ e ∈ w.log, isFailure e = true) ∧ code = EXIT_FAILURE ∧ w.stdout = [] := by
  obtain ⟨code, w, hm, hfail, _⟩ :=
    capture_all_or_nothing (some "CapPrm:\t000001ffffffffff\n".toList) "cmos-dump"
      (fun log _ => if log.length = 46 then Answer.fail else Answer.ok 0) (fun _ => 0)
  have hrun :
      (match main (some "CapPrm:\t000001ffffffffff\n".toList) "cmos-dump"
          (fun log _ => if log.length = 46 then Answer.fail else Answer.ok 0) (fun _ => 0) with
        | Outcome.exit _ w1 => decide ((⟨Call.read 0x71, Answer.fail⟩ : Event) ∈ w1.log)
        | _ => false) = true := by
    decide
  rw [hm] at hrun
  have hmem : (⟨Call.read 0x71, Answer.fail⟩ : Event) ∈ w.log := of_decide_eq_true hrun
  have hex : ∃ e ∈ w.log, isFailure e = true := ⟨_, hmem, rfl⟩
  exact ⟨code, w, hm, hmem, hex, hfail hex⟩

/-! ## Claims C11 to C18 -/

/-- C11: whenever the mask returned by `get_capabilities` has no bit in common
with `CAP_SYS_RAWIO`, `main` ends with `exit(EXIT_FAILURE)` with an empty log
of system calls on `/dev/port` and nothing on the standard output; the only
output is the message naming the capability on `stderr`. -/
theorem privilege_gate (status : Option (List Char)) (argv0 : String) (env : Env)
    (data0 : CmosImage) (caps : Nat)
    (hcaps : get_capabilities status = some caps)
    (hfail : caps &&& CAP_SYS_RAWIO = 0) :
    main status argv0 env data0 =
      Outcome.exit EXIT_FAILURE ⟨[], [], [ErrMsg.needCapability argv0]⟩ := by
  have hp : privilegeMissing caps = true := by
    unfold privilegeMissing
    rw [hfail]
    rfl
  unfold main
  rw [hcaps]
  simp only []
  rw [if_pos hp]
  rfl

/-- C11 (instance): a process whose `CapPrm` is 0, on a system where every
call would succeed. -/
theorem privilege_gate_witness :
    main (some "CapPrm:\t0000000000000000\n".toList) "cmos-dump"
      (fun _ _ => Answer.ok 0) (fun _ => 0) =
      Outcome.exit EXIT_FAILURE ⟨[], [], [ErrMsg.needCapability "cmos-dump"]⟩ :=
  privilege_gate (some "CapPrm:\t0000000000000000\n".toList) "cmos-dump"
    (fun _ _ => Answer.ok 0) (fun _ => 0) 0 rfl rfl

theorem byte_low3_of_high (b : Byte) : (b.val >>> 4) &&& 0x7 = b.val / 16 % 8 := by
  rw [Nat.shiftRight_eq_div_pow]
  exact Nat.and_pow_two_sub_one_eq_mod _ 3

theorem byte_top_bit (b : Byte) : (b.val >>> 7) &&& 1 = b.val / 128 := by
  have h : b.val / 128 < 2 ^ 1 := by have := b.isLt; omega
  rw [Nat.shiftRight_eq_div_pow]
  exact (Nat.and_pow_two_sub_one_eq_mod _ 1).trans (Nat.mod_eq_of_lt h)

theorem byte_fields_partition (b : Byte) :
    b.val = (b.val &&& 0xf) ||| (((b.val >>> 4) &&& 0x7) <<< 4) |||
      (((b.val >>> 7) &&& 1) <<< 7) := by
  have hb := b.isLt
  have e0 : b.val &&& 0xf = b.val % 16 := Nat.and_pow_two_sub_one_eq_mod b.val 4
  rw [e0, byte_low3_of_high, byte_top_bit]
  have s4 : (b.val / 16 % 8) <<< 4 = 2 ^ 4 * (b.val / 16 % 8) := by
    rw [Nat.shiftLeft_eq, Nat.mul_comm]
  have s7 : (b.val / 128) <<< 7 = 2 ^ 7 * (b.val / 128) := by
    rw [Nat.shiftLeft_eq, Nat.mul_comm]
  have l4 : b.val % 16 < 2 ^ 4 := Nat.mod_lt _ (by decide)
  rw [s4, s7, Nat.lor_comm (b.val % 16), ← Nat.mul_add_lt_is_or l4]
  have l7 : 2 ^ 4 * (b.val / 16 % 8) + b.val % 16 < 2 ^ 7 := by omega
  rw [Nat.lor_comm, ← Nat.mul_add_lt_is_or l7]
  omega

/-- C13: for every image, with `b` the byte at offset 0x0A, the Status
Register A section prints `b & 0xf` with entry `b & 0xf` of the 16-entry table
`rate_selection`, `(b >> 4) & 0x7` with entry `(b >> 4) & 0x7` of the 8-entry
table `divider`, and `(b >> 7) & 1`. These are bits 3:0, bits 6:4 and bit 7 of
`b`, and `b = rate | (divider << 4) | (uip << 7)`. -/
theorem status_register_a_fields (data : CmosImage) :
    ∃ rateLabel dividerLabel,
      rate_selection[(data 0x0A).val &&& 0xf]? = some rateLabel ∧
      divider[((data 0x0A).val >>> 4) &&& 0x7]? = some dividerLabel ∧
      reportStatusA data =
        [⟨"Status Register A: (CMOS 0x0a): 0x%2.2x\n", [Arg.num (data 0x0A).val]⟩,
         ⟨"  Rate freq:              %1.1x (%s)\n",
          [Arg.num ((data 0x0A).val &&& 0xf), Arg.str rateLabel]⟩,
         ⟨"  Timer freq divider:     %1.1x (%s)\n",
          [Arg.num (((data 0x0A).val >>> 4) &&& 0x7), Arg.str dividerLabel]⟩,
         ⟨"  Update in progress:     %1.1x\n", [Arg.num (((data 0x0A).val >>> 7) &&& 1)]⟩,
         ⟨"\n", []⟩] ∧
      (data 0x0A).val &&& 0xf = (data 0x0A).val % 16 ∧
      ((data 0x0A).val >>> 4) &&& 0x7 = (data 0x0A).val / 16 % 8 ∧
      ((data 0x0A).val >>> 7) &&& 1 = (data 0x0A).val / 128 ∧
      (data 0x0A).val =
        ((data 0x0A).val &&& 0xf) ||| ((((data 0x0A).val >>> 4) &&& 0x7) <<< 4) |||
          ((((data 0x0A).val >>> 7) &&& 1) <<< 7) ∧
      rate_selection.length = 16 ∧ divider.length = 8 := by
  have hr : (data 10).val &&& 0xf < rate_selection.length :=
    Nat.lt_of_le_of_lt Nat.and_le_right (by decide)
  have hd : ((data 10).val >>> 4) &&& 0x7 < divider.length :=
    Nat.lt_of_le_of_lt Nat.and_le_right (by decide)
  refine ⟨rate_selection.get ⟨_, hr⟩, divider.get ⟨_, hd⟩,
    List.getElem?_eq_getElem hr, List.getElem?_eq_getElem hd, ?_,
    Nat.and_pow_two_sub_one_eq_mod _ 4, byte_low3_of_high _, byte_top_bit _,
    byte_fields_partition _, rfl, rfl⟩
  unfold reportStatusA
  rw [lookup_of_lt _ _ hr, lookup_of_lt _ _ hd]

/-- C14: for every image the hex-dump loop ends after exactly 16 iterations
(a bound of 16 iterations is enough and a bound of 15 is not). Row `k`, for
`k = 0, ..., 15`, is labelled `8 * k` and prints `data[8 * k]`, ...,
`data[8 * k + 7]` in this order, every index being below 128; the bytes
printed by the 16 rows, taken in order, are the 128 bytes of the image. -/
theorem hex_dump_rows (data : CmosImage) :
    ∃ rows,
      hexLoop data counterStates 0 = some rows ∧
      hexLoop data 16 0 = some rows ∧
      hexLoop data 15 0 = none ∧
      rows.length = 16 ∧
      rows = List.ofFn (fun k : Fin 16 =>
        (⟨"  %2.2x: %2.2x %2.2x %2.2x %2.2x  %2.2x %2.2x %2.2x %2.2x\n",
          [Arg.num (8 * k.val),
           Arg.num (data ⟨8 * k.val, by omega⟩).val,
           Arg.num (data ⟨8 * k.val + 1, by omega⟩).val,
           Arg.num (data ⟨8 * k.val + 2, by omega⟩).val,
           Arg.num (data ⟨8 * k.val + 3, by omega⟩).val,
           Arg.num (data ⟨8 * k.val + 4, by omega⟩).val,
           Arg.num (data ⟨8 * k.val + 5, by omega⟩).val,
           Arg.num (data ⟨8 * k.val + 6, by omega⟩).val,
           Arg.num (data ⟨8 * k.val + 7, by omega⟩).val]⟩ : Printf)) ∧
      rows.flatMap (fun row => row.args.tail) =
        (List.ofFn data).map (fun b => Arg.num b.val) ∧
      report data =
        some ([⟨"CMOS Memory Dump:\n", []⟩] ++ rows ++ [⟨"\n", []⟩] ++ decode data) :=
  ⟨_, hexLoop_eq data, rfl, rfl, rfl, rfl, rfl, report_eq data⟩
theorem shiftRight_succ_eq (b j : Nat) : b >>> (j + 1) = (b / 2) >>> j := by
  rw [Nat.add_comm, Nat.shiftRight_add, Nat.shiftRight_eq_div_pow b 1]

theorem statusB_flags_of_high_bits (data1 data2 : CmosImage)
    (h : (data1 0x0B).val / 2 = (data2 0x0B).val / 2) :
    (reportStatusB data1).tail = (reportStatusB data2).tail := by
  have e : ∀ (b1 b2 : Nat), b1 / 2 = b2 / 2 → ∀ j, b1 >>> (j + 1) = b2 >>> (j + 1) := by
    intro b1 b2 hb j
    rw [shiftRight_succ_eq, shiftRight_succ_eq, hb]
  have e1 := e _ _ h 0
  have e2 := e _ _ h 1
  have e3 := e _ _ h 2
  have e4 := e _ _ h 3
  have e5 := e _ _ h 4
  have e6 := e _ _ h 5
  have e7 := e _ _ h 6
  simp only [Nat.zero_add, Nat.reduceAdd] at e1 e2 e3 e4 e5 e6 e7
  unfold reportStatusB
  simp only [List.tail_cons]
  rw [e1, e2, e3, e4, e5, e6, e7]

/-- C12 (evaluation at the failing input): the images whose byte 0x0B is 0x00
and 0x01, all other bytes being 0, differ in bit 0 of Status Register B and
give the same eight flag lines. Both "Daylight savings" and "24 Hour Clock"
print bit 1, and bit 0 is not printed: for every two images whose bytes 0x0B
agree on bits 7 to 1 the eight flag lines are the same. -/
theorem statusB_flags_ignore_bit_0 :
    (reportStatusB (fun _ => 0x00)).tail =
      (reportStatusB (fun i => if i = 0x0B then 0x01 else 0x00)).tail ∧
    (reportStatusB (fun i => if i = 0x0B then 0x02 else 0x00)).take 3 =
      [⟨"Status Register B: (CMOS 0x0b): 0x%2.2x\n", [Arg.num 0x02]⟩,
       ⟨"  Daylight savings:       %1.1x (%s)\n", [Arg.num 1, Arg.str "Enabled"]⟩,
       ⟨"  24 Hour Clock:          %1.1x (%s)\n", [Arg.num 1, Arg.str "12 Hour"]⟩] ∧
    (∀ data1 data2 : CmosImage, (data1 0x0B).val / 2 = (data2 0x0B).val / 2 →
      (reportStatusB data1).tail = (reportStatusB data2).tail) :=
  ⟨by decide, by decide, statusB_flags_of_high_bits⟩

theorem ternary_bit (v k : Nat) (a b : String) :
    ternary ((v >>> k) &&& 1) a b = Arg.str (if (v >>> k) &&& 1 = 1 then a else b) := by
  have h : (v >>> k) &&& 1 ≤ 1 := Nat.and_le_right
  unfold ternary
  by_cases h0 : (v >>> k) &&& 1 = 0
  · rw [h0]; rfl
  · have h1 : (v >>> k) &&& 1 = 1 := by omega
    rw [h1]; rfl

theorem flag_line_of_ternary (fmt : String) (v k : Nat) (a b : String) (hab : a ≠ b) :
    ∃ x setLabel clearLabel, x ≤ 1 ∧ setLabel ≠ clearLabel ∧
      (⟨fmt, [Arg.num ((v >>> k) &&& 1), ternary ((v >>> k) &&& 1) a b]⟩ : Printf).args =
        [Arg.num x, Arg.str (if x = 1 then setLabel else clearLabel)] :=
  ⟨(v >>> k) &&& 1, a, b, Nat.and_le_right, hab, by rw [ternary_bit]⟩

theorem flag_lines_follow_printed_bit (data : CmosImage) :
    ∀ l ∈ ((reportStatusB data).drop 1).take 8 ++ ((reportStatusCD data).drop 7).take 1 ++
        ((reportDiagnostic data).drop 1).take 6 ++ ((reportInstalled data).drop 1).take 3 ++
        ((reportTail data).drop 11).take 2,
      (l.fmt = "  Square Wave:            %1.1x (%s)\n" ∨
        l.fmt = "  Update ended IRQ:       %1.1x (%s)\n") ∨
      ∃ x setLabel clearLabel, x ≤ 1 ∧ setLabel ≠ clearLabel ∧
        l.args = [Arg.num x, Arg.str (if x = 1 then setLabel else clearLabel)] := by
  intro l hl
  simp only [reportStatusB, reportStatusCD, reportDiagnostic, reportInstalled, reportTail,
    List.drop_succ_cons, List.drop_zero, List.take_succ_cons, List.take_zero,
    List.cons_append, List.nil_append, List.mem_cons, List.not_mem_nil, or_false] at hl
  rcases hl with rfl | rfl | rfl | rfl | rfl | rfl | rfl | rfl | rfl | rfl | rfl | rfl | rfl |
    rfl | rfl | rfl | rfl | rfl | rfl | rfl
  all_goals first
    | exact Or.inl (Or.inl rfl)
    | exact Or.inl (Or.inr rfl)
    | exact Or.inr (flag_line_of_ternary _ _ _ _ _ (by decide))

/-- C18 (evaluation at the failing input): in the image whose byte 0x0B is
0x08, all other bytes being 0, the "Square Wave" line prints the raw value 1
with the label "Disabled" and the "Update ended IRQ" line prints the raw value
0 with the label "Enabled". For every image the label of the "Square Wave"
line follows bit 2 while the line prints bit 3, and the label of the
"Update ended IRQ" line follows bit 3 while the line prints bit 4. On each of
the 18 other flag lines of Status Registers B and D, Diagnostic Status,
Installed H/W and POST Information, the raw value `x` printed is 0 or 1 and
the label is one of two different labels, the first when `x = 1`. -/
theorem statusB_labels_from_neighbour_bit :
    ((reportStatusB (fun i => if i = 0x0B then 0x08 else 0x00)).drop 4).take 2 =
      [⟨"  Square Wave:            %1.1x (%s)\n", [Arg.num 1, Arg.str "Disabled"]⟩,
       ⟨"  Update ended IRQ:       %1.1x (%s)\n", [Arg.num 0, Arg.str "Enabled"]⟩] ∧
    (∀ data : CmosImage,
      ((reportStatusB data).drop 4).take 2 =
        [⟨"  Square Wave:            %1.1x (%s)\n",
          [Arg.num ((data 0x0B).val / 8 % 2),
           Arg.str (if (data 0x0B).val / 4 % 2 = 1 then "Enabled" else "Disabled")]⟩,
         ⟨"  Update ended IRQ:       %1.1x (%s)\n",
          [Arg.num ((data 0x0B).val / 16 % 2),
           Arg.str (if (data 0x0B).val / 8 % 2 = 1 then "Enabled" else "Disabled")]⟩]) ∧
    (∀ data : CmosImage,
      ∀ l ∈ ((reportStatusB data).drop 1).take 8 ++ ((reportStatusCD data).drop 7).take 1 ++
          ((reportDiagnostic data).drop 1).take 6 ++ ((reportInstalled data).drop 1).take 3 ++
          ((reportTail data).drop 11).take 2,
        (l.fmt = "  Square Wave:            %1.1x (%s)\n" ∨
          l.fmt = "  Update ended IRQ:       %1.1x (%s)\n") ∨
        ∃ x setLabel clearLabel, x ≤ 1 ∧ setLabel ≠ clearLabel ∧
          l.args = [Arg.num x, Arg.str (if x = 1 then setLabel else clearLabel)]) := by
  refine ⟨by decide, ?_, flag_lines_follow_printed_bit⟩
  intro data
  have bit : ∀ (b k : Nat), (b >>> k) &&& 1 = b / 2 ^ k % 2 := by
    intro b k
    rw [Nat.shiftRight_eq_div_pow]
    exact Nat.and_pow_two_sub_one_eq_mod _ 1
  unfold reportStatusB
  simp only [List.drop_succ_cons, List.drop_zero, List.take_succ_cons, List.take_zero]
  rw [ternary_bit, ternary_bit, bit _ 2, bit _ 3, bit _ 4]
  rfl

/-! ## The log of a run, failing or not -/

theorem port_seek_log (env : Env) (offset : Byte) (w : World) :
    (∃ w1, port_seek env offset w = (none, w1) ∧
      w1.log = w.log ++ [⟨Call.lseek offset.val, Answer.fail⟩]) ∨
    (∃ b, port_seek env offset w =
      (some (), { w with log := w.log ++ [⟨Call.lseek offset.val, Answer.ok b⟩] })) := by
  unfold port_seek sys
  cases h : env w.log (Call.lseek offset.val) with
  | fail => exact Or.inl ⟨_, rfl, rfl⟩
  | ok b => exact Or.inr ⟨b, rfl⟩

theorem port_write_log (env : Env) (offset value : Byte) (w : World) :
    ∃ w1 evs, w1.log = w.log ++ evs ∧
      ((port_write env offset value w = (none, w1) ∧
        (evs.map Event.call = [Call.lseek offset.val] ∨
          evs.map Event.call = [Call.lseek offset.val, Call.write offset.val value.val])) ∨
       (port_write env offset value w = (some (), w1) ∧
        evs.map Event.call = [Call.lseek offset.val, Call.write offset.val value.val])) := by
  unfold port_write
  rcases port_seek_log env offset w with ⟨w1, h1, hl⟩ | ⟨b1, h1⟩
  · rw [h1]; exact ⟨w1, _, hl, Or.inl ⟨rfl, Or.inl rfl⟩⟩
  · rw [h1]
    simp only [sys]
    cases h : env (w.log ++ [⟨Call.lseek offset.val, Answer.ok b1⟩])
        (Call.write offset.val value.val) with
    | fail =>
      exact ⟨_, [⟨Call.lseek offset.val, Answer.ok b1⟩,
        ⟨Call.write offset.val value.val, Answer.fail⟩],
        by simp [complain], Or.inl ⟨rfl, Or.inr rfl⟩⟩
    | ok b2 =>
      exact ⟨_, [⟨Call.lseek offset.val, Answer.ok b1⟩,
        ⟨Call.write offset.val value.val, Answer.ok b2⟩], by simp, Or.inr ⟨rfl, rfl⟩⟩

theorem port_read_log (env : Env) (offset : Byte) (w : World) :
    ∃ w1 evs, w1.log = w.log ++ evs ∧
      ((port_read env offset w = (none, w1) ∧
        (evs.map Event.call = [Call.lseek offset.val] ∨
          evs.map Event.call = [Call.lseek offset.val, Call.read offset.val])) ∨
       (∃ b, port_read env offset w = (some b, w1) ∧
        evs.map Event.call = [Call.lseek offset.val, Call.read offset.val])) := by
  unfold port_read
  rcases port_seek_log env offset w with ⟨w1, h1, hl⟩ | ⟨b1, h1⟩
  · rw [h1]; exact ⟨w1, _, hl, Or.inl ⟨rfl, Or.inl rfl⟩⟩
  · rw [h1]
    simp only [sys]
    cases h : env (w.log ++ [⟨Call.lseek offset.val, Answer.ok b1⟩])
        (Call.read offset.val) with
    | fail =>
      exact ⟨_, [⟨Call.lseek offset.val, Answer.ok b1⟩,
        ⟨Call.read offset.val, Answer.fail⟩],
        by simp [complain], Or.inl ⟨rfl, Or.inr rfl⟩⟩
    | ok b2 =>
      exact ⟨_, [⟨Call.lseek offset.val, Answer.ok b1⟩,
        ⟨Call.read offset.val, Answer.ok b2⟩], by simp, Or.inr ⟨b2, rfl, rfl⟩⟩

theorem close_log (env : Env) (w : World) :
    (sys env Call.close w).2.log = w.log ++ [⟨Call.close, env w.log Call.close⟩] :=
  rfl

theorem cmos_read_log (env : Env) (offset : Byte) (w : World) :
    ∃ w1 evs,
      (cmos_read env offset w = Outcome.exit EXIT_FAILURE w1 ∨
        ∃ b, cmos_read env offset w = Outcome.ret b w1) ∧
      w1.log = w.log ++ evs ∧
      (evs = [⟨Call.open, Answer.fail⟩] ∨
        ∃ b0 mid a, evs = ⟨Call.open, Answer.ok b0⟩ :: (mid ++ [⟨Call.close, a⟩]) ∧
          mid.map Event.call <+: cmosReadBody offset.val) := by
  unfold cmos_read
  simp only [sys]
  cases h0 : env w.log Call.open with
  | fail =>
    exact ⟨_, [⟨Call.open, Answer.fail⟩], Or.inl rfl, by simp [complain], Or.inl rfl⟩
  | ok b0 =>
    simp only []
    obtain ⟨w1, evs1, hl1, hc1⟩ := port_write_log env 0x70 offset
      { w with log := w.log ++ [⟨Call.open, Answer.ok b0⟩] }
    have hl1' : w1.log = w.log ++ ⟨Call.open, Answer.ok b0⟩ :: evs1 := by
      rw [hl1]; simp
    rcases hc1 with ⟨h1, hp1⟩ | ⟨h1, hp1⟩
    · rw [h1]
      refine ⟨_, _, Or.inl rfl, ?_, Or.inr ⟨b0, evs1, env w1.log Call.close, rfl, ?_⟩⟩
      · simp only []
        rw [hl1']; simp
      · rcases hp1 with e | e <;> rw [e] <;> exact ⟨_, rfl⟩
    · rw [h1]
      simp only []
      obtain ⟨w2, evs2, hl2, hc2⟩ := port_write_log env 0x80 0x00 w1
      rcases hc2 with ⟨h2, hp2⟩ | ⟨h2, hp2⟩
      · rw [h2]
        refine ⟨_, _, Or.inl rfl, ?_,
          Or.inr ⟨b0, evs1 ++ evs2, env w2.log Call.close, rfl, ?_⟩⟩
        · simp only []
          rw [hl2, hl1']; simp
        · rw [List.map_append, hp1]
          rcases hp2 with e | e <;> rw [e] <;> exact ⟨_, rfl⟩
      · rw [h2]
        simp only []
        obtain ⟨w3, evs3, hl3, hc3⟩ := port_read_log env 0x71 w2
        rcases hc3 with ⟨h3, hp3⟩ | ⟨b, h3, hp3⟩
        · rw [h3]
          refine ⟨_, _, Or.inl rfl, ?_,
            Or.inr ⟨b0, evs1 ++ evs2 ++ evs3, env w3.log Call.close, rfl, ?_⟩⟩
          · simp only []
            rw [hl3, hl2, hl1']; simp
          · rw [List.map_append, List.map_append, hp1, hp2]
            rcases hp3 with e | e <;> rw [e] <;> exact ⟨_, rfl⟩
        · rw [h3]
          refine ⟨_, _, Or.inr ⟨b, rfl⟩, ?_,
            Or.inr ⟨b0, evs1 ++ evs2 ++ evs3, env w3.log Call.close, rfl, ?_⟩⟩
          · simp only []
            rw [hl3, hl2, hl1']; simp
          · rw [List.map_append, List.map_append, hp1, hp2, hp3]
            exact ⟨_, rfl⟩

theorem portSafe_of_mem_body (offset : Nat) (h : offset < 128) (c : Call)
    (hc : c ∈ cmosReadBody offset) : portSafe c = true := by
  simp only [cmosReadBody, List.mem_cons, List.not_mem_nil, or_false] at hc
  rcases hc with rfl | rfl | rfl | rfl | rfl | rfl
  · rfl
  · simp [portSafe, h]
  · rfl
  · rfl
  · rfl
  · rfl

theorem cmos_read_portSafe (env : Env) (offset : Byte) (h : offset.val < 128) (w : World) :
    ∃ w1 evs,
      (cmos_read env offset w = Outcome.exit EXIT_FAILURE w1 ∨
        ∃ b, cmos_read env offset w = Outcome.ret b w1) ∧
      w1.log = w.log ++ evs ∧ ∀ e ∈ evs, portSafe e.call = true := by
  obtain ⟨w1, evs, hout, hlog, hshape⟩ := cmos_read_log env offset w
  refine ⟨w1, evs, hout, hlog, ?_⟩
  rcases hshape with rfl | ⟨b0, mid, a, rfl, hpre⟩
  · intro e he
    rw [List.mem_singleton] at he
    subst he
    rfl
  · intro e he
    rcases List.mem_cons.mp he with rfl | he
    · rfl
    · rcases List.mem_append.mp he with he | he
      · exact portSafe_of_mem_body offset.val h e.call
          (hpre.subset (List.mem_map_of_mem Event.call he))
      · rw [List.mem_singleton] at he
        subst he
        rfl

theorem captureLoop_portSafe (env : Env) :
    ∀ (fuel i : Nat) (data : CmosImage) (w : World), i ≤ 128 → 128 - i ≤ fuel →
      ∃ w1 evs,
        (captureLoop env fuel i data w = Outcome.exit EXIT_FAILURE w1 ∨
          ∃ d, captureLoop env fuel i data w = Outcome.ret d w1) ∧
        w1.log = w.log ++ evs ∧ ∀ e ∈ evs, portSafe e.call = true := by
  intro fuel
  induction fuel with
  | zero =>
    intro i data w hi hf
    have e : i = 128 := by omega
    subst e
    refine ⟨w, [], Or.inr ⟨data, ?_⟩, (List.append_nil _).symm, fun e he => by cases he⟩
    unfold captureLoop
    rw [if_neg (by decide)]
  | succ fuel ih =>
    intro i data w hi hf
    unfold captureLoop
    by_cases h : i < 128
    · rw [dif_pos h]
      have hval : (Fin.ofNat i : Byte).val < 128 := by
        have e : (Fin.ofNat i : Byte).val = i := Nat.mod_eq_of_lt (by omega)
        rw [e]; exact h
      obtain ⟨w1, evs1, hout1, hlog1, hs1⟩ := cmos_read_portSafe env (Fin.ofNat i) hval w
      rcases hout1 with h1 | ⟨b, h1⟩
      · rw [h1]
        exact ⟨w1, evs1, Or.inl rfl, hlog1, hs1⟩
      · rw [h1]
        simp only []
        have hmod : (i + 1) % 256 = i + 1 := Nat.mod_eq_of_lt (by omega)
        rw [hmod]
        obtain ⟨w2, evs2, hout2, hlog2, hs2⟩ :=
          ih (i + 1) (Function.update data ⟨i, h⟩ b) w1 (by omega) (by omega)
        refine ⟨w2, evs1 ++ evs2, hout2, ?_, ?_⟩
        · rw [hlog2, hlog1, List.append_assoc]
        · intro e he
          rcases List.mem_append.mp he with he | he
          · exact hs1 e he
          · exact hs2 e he
    · rw [dif_neg h]
      exact ⟨w, [], Or.inr ⟨data, rfl⟩, (List.append_nil _).symm, fun e he => by cases he⟩

theorem main_portSafe (status : Option (List Char)) (argv0 : String) (env : Env)
    (data0 : CmosImage) :
    ∃ code w, main status argv0 env data0 = Outcome.exit code w ∧
      ∀ e ∈ w.log, portSafe e.call = true := by
  obtain ⟨caps, hcaps⟩ := get_capabilities_terminates status
  unfold main
  rw [hcaps]
  simp only []
  by_cases hp : privilegeMissing caps = true
  · rw [if_pos hp]
    exact ⟨_, _, rfl, fun e he => by cases he⟩
  · rw [if_neg hp]
    obtain ⟨w1, evs, hout, hlog, hs⟩ :=
      captureLoop_portSafe env counterStates 0 data0 ⟨[], [], []⟩ (by decide) (by decide)
    have hlog' : w1.log = evs := by rw [hlog]; rfl
    rcases hout with h1 | ⟨d, h1⟩
    · rw [h1]
      exact ⟨_, w1, rfl, fun e he => hs e (hlog' ▸ he)⟩
    · rw [h1]
      simp only []
      rw [report_eq]
      exact ⟨_, _, rfl, fun e he => hs e (hlog' ▸ he)⟩

/-- C15: every run of `main`, whatever the process status and whatever the
system answers, ends with a call of `exit`, and each system call it made on
`/dev/port` obeys: a write goes to port 0x70 with a value below 128 (bit 7
clear) or to port 0x80 with the value 0x00, and a read comes from port 0x71.
In particular port 0x71 is never written. -/
theorem ports_never_modified (status : Option (List Char)) (argv0 : String) (env : Env)
    (data0 : CmosImage) :
    ∃ code w, main status argv0 env data0 = Outcome.exit code w ∧
      ∀ e ∈ w.log,
        (∀ port value, e.call = Call.write port value →
          (port = 0x70 ∧ value < 128 ∧ value.testBit 7 = false) ∨
          (port = 0x80 ∧ value = 0x00)) ∧
        (∀ port, e.call = Call.read port → port = 0x71) := by
  obtain ⟨code, w, hm, hs⟩ := main_portSafe status argv0 env data0
  refine ⟨code, w, hm, fun e he => ⟨?_, ?_⟩⟩
  · intro port value hc
    have h := hs e he
    rw [hc] at h
    simp only [portSafe, Bool.or_eq_true, Bool.and_eq_true, beq_iff_eq,
      decide_eq_true_eq] at h
    rcases h with ⟨hp, hv⟩ | ⟨hp, hv⟩
    · exact Or.inl ⟨hp, hv, Nat.testBit_lt_two_pow hv⟩
    · exact Or.inr ⟨hp, hv⟩
  · intro port hc
    have h := hs e he
    rw [hc] at h
    simpa only [portSafe, beq_iff_eq] using h

/-- C15 (instance): on a system where the 47th call fails, the run has written
5 to port 0x70, and that write obeys the rule. -/
theorem ports_never_modified_witness :
    ∃ code w,
      main (some "CapPrm:\t000001ffffffffff\n".toList) "cmos-dump"
        (fun log _ => if log.length = 46 then Answer.fail else Answer.ok 0) (fun _ => 0)
        = Outcome.exit code w ∧
      ⟨Call.write 0x70 5, Answer.ok 0⟩ ∈ w.log ∧
      ((0x70 = 0x70 ∧ 5 < 128 ∧ Nat.testBit 5 7 = false) ∨ (0x70 = 0x80 ∧ 5 = 0x00)) := by
  obtain ⟨code, w, hm, hall⟩ :=
    ports_never_modified (some "CapPrm:\t000001ffffffffff\n".toList) "cmos-dump"
      (fun log _ => if log.length = 46 then Answer.fail else Answer.ok 0) (fun _ => 0)
  have hrun :
      (match main (some "CapPrm:\t000001ffffffffff\n".toList) "cmos-dump"
          (fun log _ => if log.length = 46 then Answer.fail else Answer.ok 0) (fun _ => 0) with
        | Outcome.exit _ w1 => decide ((⟨Call.write 0x70 5, Answer.ok 0⟩ : Event) ∈ w1.log)
        | _ => false) = true := by
    decide
  rw [hm] at hrun
  have hmem : (⟨Call.write 0x70 5, Answer.ok 0⟩ : Event) ∈ w.log := of_decide_eq_true hrun
  exact ⟨code, w, hm, hmem, (hall _ hmem).1 0x70 5 rfl⟩

/-- C16: every call of `cmos_read` ends, by returning or by `exit(EXIT_FAILURE)`,
and the system calls it made are either the single failed `open`, or a
successful `open`, then calls that are neither `open` nor `close`, then one
`close` as the last call. The calls in between are a prefix of the six calls
of a complete read, so the second shape covers the normal return and the exits
after a failed seek, write or read. The handle is closed exactly once and not
used afterwards. -/
theorem handle_closed_exactly_once (env : Env) (offset : Byte) (w : World) :
    ∃ w1 evs,
      (cmos_read env offset w = Outcome.exit EXIT_FAILURE w1 ∨
        ∃ b, cmos_read env offset w = Outcome.ret b w1) ∧
      w1.log = w.log ++ evs ∧
      (evs = [⟨Call.open, Answer.fail⟩] ∨
        ∃ b0 mid a, evs = ⟨Call.open, Answer.ok b0⟩ :: (mid ++ [⟨Call.close, a⟩]) ∧
          mid.map Event.call <+: cmosReadBody offset.val ∧
          (∀ e ∈ mid, e.call ≠ Call.open ∧ e.call ≠ Call.close) ∧
          (evs.map Event.call).count Call.close = 1) := by
  obtain ⟨w1, evs, hout, hlog, hshape⟩ := cmos_read_log env offset w
  refine ⟨w1, evs, hout, hlog, ?_⟩
  rcases hshape with h | ⟨b0, mid, a, rfl, hpre⟩
  · exact Or.inl h
  · have hmid : ∀ e ∈ mid, e.call ≠ Call.open ∧ e.call ≠ Call.close := by
      intro e he
      have hb : e.call ∈ cmosReadBody offset.val :=
        hpre.subset (List.mem_map_of_mem Event.call he)
      simp only [cmosReadBody, List.mem_cons, List.not_mem_nil, or_false] at hb
      rcases hb with h | h | h | h | h | h <;> rw [h] <;>
        exact ⟨Call.noConfusion, Call.noConfusion⟩
    refine Or.inr ⟨b0, mid, a, rfl, hpre, hmid, ?_⟩
    have hnot : Call.close ∉ mid.map Event.call := by
      intro hc
      obtain ⟨e, he, hce⟩ := List.mem_map.mp hc
      exact (hmid e he).2 hce
    rw [List.map_cons, List.map_append, List.count_cons, List.count_append,
      List.count_eq_zero_of_not_mem hnot]
    rfl

/-- C16 (instance): when the seek of the delay write fails, the handle is
closed before the exit. -/
theorem handle_closed_exactly_once_witness :
    cmos_read (fun log _ => if log.length = 3 then Answer.fail else Answer.ok 0) 5
        ⟨[], [], []⟩ =
      Outcome.exit EXIT_FAILURE
        ⟨[⟨Call.open, Answer.ok 0⟩, ⟨Call.lseek 0x70, Answer.ok 0⟩,
          ⟨Call.write 0x70 5, Answer.ok 0⟩, ⟨Call.lseek 0x80, Answer.fail⟩,
          ⟨Call.close, Answer.ok 0⟩], [], [ErrMsg.cannotSeek 0x80]⟩ ∧
    ∃ w1 evs,
      (cmos_read (fun log _ => if log.length = 3 then Answer.fail else Answer.ok 0) 5
          ⟨[], [], []⟩ = Outcome.exit EXIT_FAILURE w1 ∨
        ∃ b, cmos_read (fun log _ => if log.length = 3 then Answer.fail else Answer.ok 0) 5
          ⟨[], [], []⟩ = Outcome.ret b w1) ∧
      w1.log = [] ++ evs ∧
      (evs = [⟨Call.open, Answer.fail⟩] ∨
        ∃ b0 mid a, evs = ⟨Call.open, Answer.ok b0⟩ :: (mid ++ [⟨Call.close, a⟩]) ∧
          mid.map Event.call <+: cmosReadBody (5 : Byte).val ∧
          (∀ e ∈ mid, e.call ≠ Call.open ∧ e.call ≠ Call.close) ∧
          (evs.map Event.call).count Call.close = 1) :=
  ⟨rfl, handle_closed_exactly_once
    (fun log _ => if log.length = 3 then Answer.fail else Answer.ok 0) 5 ⟨[], [], []⟩⟩

/-! ## The status source -/

theorem strstr_eq_true_iff (haystack needle : List Char) :
    strstr haystack needle = true ↔ needle <:+: haystack := by
  induction haystack with
  | nil =>
    unfold strstr
    rw [List.infix_nil, List.isEmpty_iff]
  | cons c cs ih =>
    unfold strstr
    rw [Bool.or_eq_true, ih, List.isPrefixOf_iff_prefix, List.infix_cons_iff]

theorem fgetsChunk_append : ∀ (k : Nat) (cs : List Char),
    (fgetsChunk k cs).1 ++ (fgetsChunk k cs).2 = cs := by
  intro k
  induction k with
  | zero => intro cs; rfl
  | succ k ih =>
    intro cs
    cases cs with
    | nil => rfl
    | cons c cs =>
      unfold fgetsChunk
      by_cases h : c = '\n'
      · rw [if_pos h]; rfl
      · rw [if_neg h]
        show c :: ((fgetsChunk k cs).1 ++ (fgetsChunk k cs).2) = c :: cs
        rw [ih cs]

theorem capabilitiesLoop_no_label : ∀ (fuel : Nat) (input : List Char),
    ¬ "CapPrm:".toList <:+: input → input.length ≤ fuel →
    capabilitiesLoop fuel input = some 0 := by
  intro fuel
  induction fuel with
  | zero =>
    intro input _ h
    have e : input = [] := List.length_eq_zero.mp (Nat.le_zero.mp h)
    subst e
    unfold capabilitiesLoop
    rfl
  | succ fuel ih =>
    intro input hno h
    cases input with
    | nil => unfold capabilitiesLoop; rfl
    | cons c cs =>
      unfold capabilitiesLoop
      have hg : fgets (1024 - 1) (c :: cs) = some (fgetsChunk (1021 + 1) (c :: cs)) := rfl
      rw [hg]
      simp only []
      have happ := fgetsChunk_append (1021 + 1) (c :: cs)
      have hbuf : ¬ strstr (cstr (fgetsChunk (1021 + 1) (c :: cs)).1) "CapPrm:".toList = true := by
        intro hs
        rw [strstr_eq_true_iff] at hs
        apply hno
        have h1 : cstr (fgetsChunk (1021 + 1) (c :: cs)).1 <+: (fgetsChunk (1021 + 1) (c :: cs)).1 :=
          List.takeWhile_prefix _
        have h2 : (fgetsChunk (1021 + 1) (c :: cs)).1 <+: c :: cs :=
          ⟨_, happ⟩
        exact hs.trans (h1.trans h2).isInfix
      rw [if_neg hbuf]
      have hrest : ¬ "CapPrm:".toList <:+: (fgetsChunk (1021 + 1) (c :: cs)).2 := by
        intro hs
        apply hno
        have h3 : (fgetsChunk (1021 + 1) (c :: cs)).2 <:+ c :: cs := ⟨_, happ⟩
        exact hs.trans h3.isInfix
      have hlt := fgetsChunk_rest_lt 1021 c cs
      exact ih _ hrest (by
        have h2 : (c :: cs).length ≤ fuel + 1 := h
        omega)
/-- C17 (evaluation at the failing input): the status text `Name:\t1 CapPrm:`
holds no `CapPrm:` field with a value, yet `get_capabilities` returns the mask
1, taken from the `Name:` line, the privilege check passes and `main` goes on
to open `/dev/port`. The same happens when a `CapPrm:` line with the value 0
follows. What does hold: an unavailable source, and a source that does not
contain the text `CapPrm:` at all, give the mask 0, on which the check
fails. -/
theorem name_line_grants_privilege :
    (specHasCapPrmField "Name:\t1 CapPrm:\n".toList = false ∧
      get_capabilities (some "Name:\t1 CapPrm:\n".toList) = some 1 ∧
      privilegeMissing 1 = false) ∧
    (∀ (argv0 : String) (data0 : CmosImage),
      main (some "Name:\t1 CapPrm:\n".toList) argv0 (fun _ _ => Answer.fail) data0 =
        Outcome.exit EXIT_FAILURE ⟨[⟨Call.open, Answer.fail⟩], [], [ErrMsg.cannotOpen]⟩) ∧
    get_capabilities (some "Name:\t1 CapPrm:\nCapPrm:\t0000000000000000\n".toList) = some 1 ∧
    (get_capabilities none = some 0 ∧ privilegeMissing 0 = true) ∧
    (∀ content : List Char, ¬ "CapPrm:".toList <:+: content →
      get_capabilities (some content) = some 0) :=
  ⟨⟨by decide, by decide, by decide⟩, fun _ _ => rfl, by decide, ⟨rfl, rfl⟩,
    fun content h => capabilitiesLoop_no_label content.length content h (le_refl _)⟩
end CmosDump
